import Mathlib

/-!
# Greenframe router / lifecycle / overlay engine: verification of spec claims

A shallow embedding of the greenframe application shell (Activity router,
component lifecycle, modal overlay controller, fixed-region tracker) in Lean 4,
translated from the TypeScript sources, together with theorems settling the
frozen specification claims.

Host-environment functions (DOM, `JSON.parse`, `decodeURIComponent`) that the
sources call are modelled on the input domain the engine feeds them; each such
model carries a doc comment saying what it models.
-/

namespace Greenframe

/-! ## String utilities modelling the JavaScript string operations used. -/

/-- Models JavaScript String.prototype.split with a single-character separator,
on the character-list representation: `"a&&b".split("&") = ["a","","b"]` and
`"".split("&") = [""]`. -/
def splitOnChar (c : Char) : List Char → List (List Char)
  | [] => [[]]
  | x :: xs =>
    match splitOnChar c xs with
    | [] => [[]]
    | h :: t => if x = c then [] :: h :: t else (x :: h) :: t

theorem splitOnChar_ne_nil (c : Char) (l : List Char) : splitOnChar c l ≠ [] := by
  induction l with
  | nil => simp [splitOnChar]
  | cons x xs ih =>
    unfold splitOnChar
    rcases h : splitOnChar c xs with _ | ⟨h', t⟩
    · exact absurd h ih
    · dsimp only
      split <;> simp

/-- Models `s.substring(s.indexOf(c) + 1)` when `c` occurs in `s`: the suffix
after the first occurrence of `c`. -/
def afterFirstChar (c : Char) : List Char → List Char
  | [] => []
  | x :: xs => if x = c then xs else afterFirstChar c xs

/-- Whether a character is a hexadecimal digit. -/
def isHexDigitChar (c : Char) : Bool :=
  c.isDigit || ('a' ≤ c && c ≤ 'f') || ('A' ≤ c && c ≤ 'F')

/-- Numeric value of a hexadecimal digit character. -/
def hexVal (c : Char) : Nat :=
  if c.isDigit then c.toNat - 48
  else if 'a' ≤ c ∧ c ≤ 'f' then c.toNat - 87
  else if 'A' ≤ c ∧ c ≤ 'F' then c.toNat - 55
  else 0

/-- Models the host `decodeURIComponent` on ASCII input: percent escapes
`%hh` are decoded to the character with that hex code, other characters are
copied unchanged (malformed escapes are left as written). -/
def decodePercent : List Char → List Char
  | [] => []
  | '%' :: a :: b :: rest =>
    if isHexDigitChar a && isHexDigitChar b then
      Char.ofNat (16 * hexVal a + hexVal b) :: decodePercent rest
    else '%' :: a :: b :: decodePercent rest
  | c :: rest => c :: decodePercent rest

/-- Converts an input to kebab-case. Translated from `util.ts` `toKebabCase`. -/
def toKebabCase (input : String) : String :=
  String.mk (go input.data 0)
where
  go : List Char → Nat → List Char
    | [], _ => []
    | c :: rest, index =>
      if c.toUpper = c then
        (if index ≠ 0 then ['-', c.toLower] else [c.toLower]) ++ go rest (index + 1)
      else
        c :: go rest (index + 1)

/-- Association lookup with JavaScript object semantics: the value bound to
the key, searching bindings in insertion order. -/
def lookupKey (k : String) : List (String × α) → Option α
  | [] => none
  | (k', v) :: rest => if k' = k then some v else lookupKey k rest

/-- Association update with JavaScript object-assignment semantics: an existing
key keeps its position and gets the new value, a new key is appended.
This is the last-key-wins behaviour of repeated `result[key] = value`. -/
def setKey (k : String) (v : α) : List (String × α) → List (String × α)
  | [] => [(k, v)]
  | (k', v') :: rest => if k' = k then (k, v) :: rest else (k', v') :: setKey k v rest

theorem lookupKey_setKey (k : String) (v : α) (m : List (String × α)) :
    lookupKey k (setKey k v m) = some v := by
  induction m with
  | nil => simp [setKey, lookupKey]
  | cons p rest ih =>
    obtain ⟨k', v'⟩ := p
    by_cases h : k' = k <;> simp [setKey, lookupKey, h, ih]

/-! ## JSON values.

`getHashArguments` feeds each hash-argument value to the host `JSON.parse`.
We model the flat-literal fragment of JSON that a hash query value can carry:
integers, double-quoted strings without escapes, booleans and null.  Inputs
outside this fragment (on which the real `JSON.parse` may throw) are mapped to
`none`, which the callers treat as a thrown SyntaxError. -/

inductive JValue
  | jnull
  | jbool (b : Bool)
  | jnum (n : Int)
  | jstr (s : String)
deriving DecidableEq, Repr

/-- Natural number denoted by a list of decimal digits. -/
def natOfDigits (l : List Char) : Nat :=
  l.foldl (fun acc c => 10 * acc + (c.toNat - 48)) 0

/-- Whether a digit string is a valid JSON integer literal body (no leading
zero unless the number is exactly zero). -/
def digitsOk (l : List Char) : Bool :=
  l ≠ [] && l.all Char.isDigit && (l.head? ≠ some '0' || l.length = 1)

/-- Models the host `JSON.parse` on the flat-literal fragment described above. -/
def jsonParse (l : List Char) : Option JValue :=
  if l = "true".data then some (.jbool true)
  else if l = "false".data then some (.jbool false)
  else if l = "null".data then some .jnull
  else
    match l with
    | '"' :: rest =>
      if rest.getLast? = some '"' &&
          rest.dropLast.all (fun c => !(c == '"') && !(c == '\\')) then
        some (.jstr (String.mk rest.dropLast))
      else none
    | '-' :: ds => if digitsOk ds then some (.jnum (-(natOfDigits ds : Int))) else none
    | ds => if digitsOk ds then some (.jnum (natOfDigits ds)) else none

/-! ## Mountable unit: the `connectedCallback` run-counter guard.

Translated from `ComponentBase.connectedCallback` (the run-counter revision):

* `connectedCallbackRan` starts at `0`;
* a call finding a non-zero counter warns, post-increments the counter and, if
  the value before the increment exceeded `6`, throws
  "Element connected callback trapped."; otherwise it returns without running
  the mount sequence;
* a call finding a zero counter increments it and runs the mount sequence
  (modelled as `mountRuns`, abstracting the body that follows the guard). -/

namespace ComponentBase

structure MountSt where
  connectedCallbackRan : Nat
  mountRuns : Nat
  warns : Nat
deriving DecidableEq, Repr

/-- One invocation of `connectedCallback`; the second component is the
thrown error, if any. -/
def connectedCallback (st : MountSt) : MountSt × Option String :=
  if st.connectedCallbackRan ≠ 0 then
    let st' : MountSt := { st with warns := st.warns + 1 }
    if st'.connectedCallbackRan > 6 then
      ({ st' with connectedCallbackRan := st'.connectedCallbackRan + 1 },
       some "Element connected callback trapped.")
    else
      ({ st' with connectedCallbackRan := st'.connectedCallbackRan + 1 }, none)
  else
    ({ st with connectedCallbackRan := st.connectedCallbackRan + 1,
               mountRuns := st.mountRuns + 1 }, none)

/-- `n` successive invocations of `connectedCallback` on a fresh instance;
the boolean records whether any invocation threw. -/
def runCC : Nat → MountSt × Bool
  | 0 => (⟨0, 0, 0⟩, false)
  | n + 1 =>
    let p := runCC n
    let q := connectedCallback p.1
    (q.1, p.2 || q.2.isSome)

theorem runCC_closed (d : Nat) :
    runCC (1 + d) = (⟨1 + d, 1, d⟩, decide (6 < d)) := by
  induction d with
  | zero => rfl
  | succ n ih =>
    have h1 : 1 + (n + 1) = (1 + n) + 1 := by omega
    rw [h1, runCC, ih]
    simp only [connectedCallback]
    by_cases h : 6 < n
    · have h2 : 1 + n > 6 := by omega
      have h3 : 6 < n + 1 := by omega
      simp [h, h2, h3]
    · by_cases h4 : 1 + n > 6
      · have h3 : 6 < n + 1 := by omega
        simp [h, h4, h3]
      · have h3 : ¬6 < n + 1 := by omega
        simp [h, h4, h3]

end ComponentBase

/-! ## Modal overlay: `removeModal` (the removing-flag revision).

Translated from `ModalComponent.removeModal`: the first call sets the
`removing` flag and performs the type-directed teardown (history back or hash
clear for hash modals, show-fixed-components plus destroyed-mark for attached
modals); any call finding the flag set resolves immediately with no effect. -/

namespace ModalComponent

inductive MType
  | hash
  | attached
  | unattached
deriving DecidableEq, Repr

structure ModalSt where
  mtype : MType
  removing : Bool
  destroyed : Bool
deriving DecidableEq, Repr

/-- Observable host effects of `removeModal`. -/
inductive ModalEff
  | historyBack
  | clearHash
  | showFixedComponents
deriving DecidableEq, Repr

/-- One call of `removeModal`; `historyState` models the truthiness of
`history.state`.  Returns the updated modal and the emitted effects. -/
def removeModal (historyState : Bool) (m : ModalSt) : ModalSt × List ModalEff :=
  if m.removing then (m, [])
  else
    let m' : ModalSt := { m with removing := true }
    match m'.mtype with
    | .hash => if historyState then (m', [.historyBack]) else (m', [.clearHash])
    | .attached => ({ m' with destroyed := true }, [.showFixedComponents])
    | .unattached => (m', [])

end ModalComponent

/-! ## Route-table construction (the `Activity.RegisterActivity` revision).

Translated from `Activity.RegisterActivity`: a non-empty route whose full
route is already registered throws "Route already registered."; an empty
(default) route while a default activity is already registered throws
"A default activity is already registered."; otherwise the element name is
defined in the custom-elements registry (which itself rejects duplicate
names) and the route is recorded. -/

namespace ActivityP4

/-- `Activity.ActivityRouteRoot`, `static readonly = ""` in the source. -/
def ActivityRouteRoot : String := ""

structure ActClass where
  hasSwitchedTo : Bool
deriving DecidableEq, Repr

structure RegSt where
  registeredActivities : List (String × String)
  defaultActivity : Option String
  customElems : List String
deriving DecidableEq, Repr

/-- `customElements.define` followed by `registeredActivities[fullRoute] = elementName`. -/
def defineAndRecord (elementName fullRoute : String) (st : RegSt) : RegSt × Option String :=
  if elementName ∈ st.customElems then
    (st, some "NotSupportedError: the name has already been used with this registry")
  else
    ({ st with customElems := st.customElems ++ [elementName],
               registeredActivities := setKey fullRoute elementName st.registeredActivities },
     none)

/-- `Activity.RegisterActivity(activity, route)`. -/
def RegisterActivity (activity : ActClass) (route : String) (st : RegSt) :
    RegSt × Option String :=
  let elementName := "activity-" ++ route
  let fullRoute := ActivityRouteRoot ++ route
  if ¬activity.hasSwitchedTo then
    (st, some "Cannot register this activity as it is not a valid activity class.")
  else if route ≠ "" then
    if (lookupKey fullRoute st.registeredActivities).isSome then
      (st, some "Route already registered.")
    else
      defineAndRecord elementName fullRoute st
  else
    if st.defaultActivity.isSome then
      (st, some "A default activity is already registered.")
    else
      defineAndRecord "activity-default" fullRoute
        { st with defaultActivity := some "activity-default" }

/-- A sequence of registrations (errors of one registration do not stop the
following ones, as each throw is confined to its own caller). -/
def runRegs (ops : List (ActClass × String)) (st : RegSt) : RegSt :=
  ops.foldl (fun s op => (RegisterActivity op.1 op.2 s).1) st

/-- Reachability invariant: a binding for the default key implies the
default-activity marker is set. -/
def Inv (st : RegSt) : Prop :=
  (lookupKey ActivityRouteRoot st.registeredActivities).isSome → st.defaultActivity.isSome

end ActivityP4

/-! ## The Application shell: router, overlay controller, fixed-region tracker.

Translated from `Application.ts` (the current revision).  The DOM is modelled
explicitly: the root's child list (screen instances and other fixed elements),
each screen's modal container, the custom-elements registry, and the location.
Throwing operations return the state reached at the throw point together with
the error, matching JavaScript exception semantics where earlier mutations
survive the throw. -/

namespace Application

inductive Anchor
  | top
  | left
  | bottom
  | right
deriving DecidableEq, Repr

/-- A registered fixed component: its anchor (`dataset.anchor`), its measured
extent, and whether `hideFixedComponents` has styled it hidden. -/
structure FixedRegion where
  anchor : Anchor
  width : Nat
  height : Nat
  hiddenStyle : Bool
deriving DecidableEq, Repr

/-- The four `--activity-*` inset custom properties, in px. -/
structure Insets where
  top : Nat
  left : Nat
  bottom : Nat
  right : Nat
deriving DecidableEq, Repr

/-- An element in an activity's modal container. -/
structure Modal where
  tag : String
  triggeredByHash : Option String
  mtype : ModalComponent.MType
  destroyed : Bool
deriving DecidableEq, Repr

abbrev HashArgs := List (String × JValue)
abbrev PageArgs := List (String × String)

/-- A modal factory registered with `hookModal`: from decoded hash arguments
to the created modal's tag, or `none` for a null modal. -/
abbrev Factory := HashArgs → Option String

/-- A child of the application root: a screen instance (`isActivity`) or any
other element (fixed components, scripts).  `destroyed` models the
`[destroyed]` attribute, `animate` the `[animate]` attribute. -/
structure Elem where
  id : Nat
  tag : String
  isActivity : Bool
  destroyed : Bool
  animate : Bool
  modals : List Modal
  hooks : List (String × Factory)
  hasRefresh : Bool
  title : Option String

/-- An activity class (constructor function): identity, class name, and the
behaviour its instances exhibit. -/
structure Ctor where
  id : Nat
  name : String
  isActivity : Bool
  hasRefresh : Bool
  title : Option String
  initHooks : List (String × Factory)

/-- An entry of `routeOverrides`. -/
structure RouteOverride where
  check : List String → Bool
  execute : String ⊕ Ctor
  args : Option (List String → PageArgs)

inductive Via
  | route
  | startActivityWithoutRouting
  | routeOverride
deriving DecidableEq, Repr

/-- The relevant parts of `window.location`.  `search` includes its leading
`?` and `hash` its leading `#` whenever they are non-empty, as in the DOM. -/
structure Loc where
  pathname : String
  search : String
  hash : String
deriving DecidableEq, Repr

/-- Observable interactions of the engine with screens, factories and the
host history. -/
inductive Ev
  | switchedTo (elemId : Nat) (args : PageArgs)
  | refreshFired (elemId : Nat)
  | factoryCalled (token : String) (args : HashArgs)
  | modalAttached (token : String) (tag : String)
  | historyBack
deriving DecidableEq, Repr

/-- The full `Application` state. -/
structure AppSt where
  started : Bool
  navigated : Bool
  navigationCounter : Nat
  loc : Loc
  currentRoute : String
  currentlyConstructedActivity : Option Nat
  currentActivityStartedVia : Via
  currentActivityTag : Option String
  currentActivityArguments : Option PageArgs
  lastHash : String
  titleText : String
  applicationName : String
  children : List Elem
  registryTags : List (String × Ctor)
  routes : List (String × Ctor)
  routeOverrides : List RouteOverride
  notFoundActivity : Option Ctor
  fixedRegions : List FixedRegion
  fixedComponentsHidden : Bool
  insets : Insets
  calcInProgress : Bool
  throwFatalOnNullModalObject : Bool
  nextId : Nat
  events : List Ev

/-- The `hash` getter: `location.hash.split("?")[0].substr(1)`. -/
def jsHash (loc : Loc) : String :=
  String.mk (((splitOnChar '?' loc.hash.data).headD []).drop 1)

/-- `getPageArguments`: everything after the `?` in the URL, split on `&`,
each pair split on `=`, keys and values `decodeURIComponent`-decoded, empty
keys skipped; a missing value decodes the string "undefined". -/
def getPageArguments (loc : Loc) : PageArgs :=
  (splitOnChar '&' (loc.search.data.drop 1)).foldl
    (fun result value =>
      match splitOnChar '=' value with
      | [] => result
      | p0 :: rest =>
        if p0 ≠ [] then
          setKey (String.mk (decodePercent p0))
            (String.mk (decodePercent ((rest.head?).getD "undefined".data))) result
        else result)
    []

/-- `getHashArguments`: if the fragment holds no `?` the result is empty,
else the suffix after the first `?` is split on `&` and `=`, and each value
is `JSON.parse`d after decoding; a parse failure is the thrown SyntaxError. -/
def getHashArguments (loc : Loc) : Except String HashArgs :=
  if loc.hash.data.contains '?' then
    (splitOnChar '&' (afterFirstChar '?' loc.hash.data)).foldlM
      (fun result value =>
        match splitOnChar '=' value with
        | [] => Except.ok result
        | p0 :: rest =>
          if p0 ≠ [] then
            match jsonParse (decodePercent ((rest.head?).getD "undefined".data)) with
            | some v => Except.ok (setKey (String.mk (decodePercent p0)) v result)
            | none => Except.error "SyntaxError: JSON.parse"
          else Except.ok result)
      []
  else Except.ok []

/-- `getCurrentActivity`: the last non-destroyed element with the current
activity tag (an undefined tag queries the literal string "undefined"). -/
def getCurrentActivity (st : AppSt) : Except String Elem :=
  let tagStr :=
    match st.currentActivityTag with
    | some t => t
    | none => "undefined"
  match (st.children.filter (fun e => e.tag == tagStr && !e.destroyed)).getLast? with
  | some e =>
    if e.isActivity then Except.ok e else Except.error "Failed to get the current activity."
  | none => Except.error "Failed to get the current activity."

def zeroInsets : Insets := ⟨0, 0, 0, 0⟩

/-- The accumulation loop of `calculateActivitySize`: widths of left/right
regions and heights of top/bottom regions, summed by anchor. -/
def sumRegions (regs : List FixedRegion) : Insets :=
  regs.foldl
    (fun acc r =>
      match r.anchor with
      | .left => { acc with left := acc.left + r.width }
      | .right => { acc with right := acc.right + r.width }
      | .bottom => { acc with bottom := acc.bottom + r.height }
      | .top => { acc with top := acc.top + r.height })
    zeroInsets

/-- `calculateActivitySize` in run-to-completion form.  Modelled from the
spec: `DOMUtil.WaitForDOMRect` is not among the sources; per the spec the
tracker reads each registered region's bounding geometry, so each promise
resolves with the region's stored measured extent and the `Promise.all`
continuation writes the accumulated sums and empties the promise list. -/
def calculateActivitySize (st : AppSt) : AppSt :=
  if st.fixedComponentsHidden = false then
    if st.calcInProgress = false then
      if st.fixedRegions = [] then { st with insets := zeroInsets }
      else { st with insets := sumRegions st.fixedRegions, calcInProgress := false }
    else st
  else { st with insets := zeroInsets }

/-- `hideFixedComponents`. -/
def hideFixedComponents (st : AppSt) : AppSt × Option String :=
  if st.fixedComponentsHidden then (st, none)
  else if st.started = false then
    (st, some "Application has not started yet. Call Application.start() first.")
  else
    let st := { st with
      fixedRegions := st.fixedRegions.map (fun r => { r with hiddenStyle := true }),
      fixedComponentsHidden := true }
    (calculateActivitySize st, none)

/-- `showFixedComponents`. -/
def showFixedComponents (st : AppSt) : AppSt × Option String :=
  if st.fixedComponentsHidden = false then (st, none)
  else if st.started = false then
    (st, some "Application has not started yet. Call Application.start() first.")
  else
    let st := { st with
      fixedRegions := st.fixedRegions.map (fun r => { r with hiddenStyle := false }),
      fixedComponentsHidden := false }
    (calculateActivitySize st, none)

/-- `Activity.destroyAllModals` on the activity with the given id: every
modal in its container is marked destroyed (physical removal is deferred to
the animation machinery and can only shrink the container further). -/
def destroyAllModalsOn (actId : Nat) (st : AppSt) : AppSt :=
  { st with children := st.children.map (fun e =>
      if e.id = actId then
        { e with modals := e.modals.map (fun m => { m with destroyed := true }) }
      else e) }

/-- The `setupActivity` closure of `startActivityViaTag`: updates the title
and delivers the navigation arguments through `switchedTo`; calling it on a
non-Activity element is the JavaScript TypeError. -/
def setupActivity (args : PageArgs) (act : Elem) (st : AppSt) : AppSt × Option String :=
  let st1 :=
    match act.title with
    | some t => { st with titleText := t ++ " — " ++ st.applicationName }
    | none =>
      if st.titleText ≠ st.applicationName then { st with titleText := st.applicationName }
      else st
  if act.isActivity then
    ({ st1 with events := st1.events ++ [.switchedTo act.id args] }, none)
  else
    (st1, some "TypeError: activity.switchedTo is not a function")

/-- `Activity.destroy` applied from the stale-forward-history sweep: screen
instances get the destroyed mark, other elements are untouched. -/
def destroyActElem (e : Elem) : Elem :=
  if e.isActivity then { e with destroyed := true } else e

/-- The `nextElementSibling` sweep of `startActivityViaTag`: every element
strictly after position `i` is destroyed if it is an Activity. -/
def destroyAfter : List Elem → Nat → List Elem
  | [], _ => []
  | e :: rest, 0 => e :: rest.map destroyActElem
  | e :: rest, i + 1 => e :: destroyAfter rest i

/-- `$_(tag + ":not([destroyed])")`: position and value of the first
non-destroyed element with the tag. -/
def firstLiveWithTag (tag : String) : List Elem → Option (Nat × Elem)
  | [] => none
  | e :: rest =>
    if e.tag = tag ∧ e.destroyed = false then some (0, e)
    else (firstLiveWithTag tag rest).map (fun p => (p.1 + 1, p.2))

/-- `$_(tag + ":last-child:not([destroyed])")`: the last child, provided it
carries the tag and is not destroyed. -/
def queryActiveLast (tag : String) (children : List Elem) : Option Elem :=
  match children.getLast? with
  | some e => if e.tag = tag ∧ e.destroyed = false then some e else none
  | none => none

/-- `startActivityViaTag`. -/
def startActivityViaTag (activityTag : String) (noAnimation : Bool) (args : PageArgs)
    (st : AppSt) : AppSt × Option String :=
  let st := { st with currentActivityArguments := some args }
  if st.started = false then
    (st, some "Application has not started yet. Call Application.start() first.")
  else
    match queryActiveLast activityTag st.children with
    | some active => setupActivity args active st
    | none =>
      let st := { st with currentActivityTag := some activityTag }
      match firstLiveWithTag activityTag st.children with
      | some (idx, loaded) =>
        let st := { st with children := destroyAfter st.children idx }
        setupActivity args loaded st
      | none =>
        match lookupKey activityTag st.registryTags with
        | some ctor =>
          if ctor.isActivity then
            let newElem : Elem :=
              { id := st.nextId, tag := activityTag, isActivity := true,
                destroyed := false, animate := !noAnimation, modals := [],
                hooks := ctor.initHooks, hasRefresh := ctor.hasRefresh,
                title := ctor.title }
            let st := { st with children := st.children ++ [newElem],
                                nextId := st.nextId + 1 }
            setupActivity args newElem st
          else
            (st, some "I tried to create a new activity, but the tag does not appear to be an instance of Activity.")
        | none =>
          (st, some "I tried to create a new activity, but the tag does not appear to be an instance of Activity.")

/-- The success continuation of the modal-creation branch of `hashChange`:
`$modal.setAttribute("triggered-by-hash", hash)`, `$modal.type = "hash"` and
the `appendChild` into the active screen's modal container. -/
def attachNewModal (h modalTag : String) (actId : Nat) (st : AppSt) : AppSt :=
  { st with
    children := st.children.map (fun e =>
      if e.id = actId then
        { e with modals := e.modals ++
            [{ tag := modalTag, triggeredByHash := some h,
               mtype := ModalComponent.MType.hash, destroyed := false }] }
      else e),
    events := st.events ++ [.modalAttached h modalTag] }

/-- The modal-creation branch of `hashChange` when the factory returned a
modal: hide the fixed components, then tag and attach the modal. -/
def attachModalStep (h modalTag : String) (actId : Nat) (st : AppSt) :
    AppSt × Option String :=
  match hideFixedComponents st with
  | (st2, some e) => (st2, some e)
  | (st2, none) => (attachNewModal h modalTag actId st2, none)

/-- The branch of `hashChange` where the factory returned null: show the
fixed components again and, with `ThrowFatalOnNullModalObject` set, throw. -/
def nullModalFallback (st : AppSt) : AppSt × Option String :=
  match showFixedComponents st with
  | (st2, some e) => (st2, some e)
  | (st2, none) =>
    if st2.throwFatalOnNullModalObject then
      (st2, some "Could not create a modal object.")
    else (st2, none)

/-- `hashChange`. -/
def hashChange (force : Bool) (st : AppSt) : AppSt × Option String :=
  let h := jsHash st.loc
  if h = st.lastHash ∧ force = false then (st, none)
  else
    let st := { st with lastHash := h }
    match getCurrentActivity st with
    | .error e => (st, some e)
    | .ok act =>
      if act.modals.any (fun m => m.triggeredByHash == some h) then
        hideFixedComponents st
      else
        let st := destroyAllModalsOn act.id st
        if h ≠ "" then
          match lookupKey h act.hooks with
          | some factory =>
            match getHashArguments st.loc with
            | .error e => (st, some e)
            | .ok args =>
              let st := { st with events := st.events ++ [.factoryCalled h args] }
              match factory args with
              | some modalTag => attachModalStep h modalTag act.id st
              | none => nullModalFallback st
          | none => (st, none)
        else
          showFixedComponents st

/-- `isPageArgumentsOutdated`: the stored stringified arguments differ from
the stringified current page arguments (`JSON.stringify` is injective on flat
ordered string maps, so string comparison is list comparison). -/
def isPageArgumentsOutdated (st : AppSt) : Bool :=
  decide (st.currentActivityArguments ≠ some (getPageArguments st.loc))

/-- `refreshCurrentActivity`. -/
def refreshCurrentActivity (st : AppSt) : AppSt × Option String :=
  match getCurrentActivity st with
  | .error e => (st, some e)
  | .ok current =>
    if current.hasRefresh then
      ({ st with events := st.events ++ [.refreshFired current.id] }, none)
    else if isPageArgumentsOutdated st then
      let args := getPageArguments st.loc
      if some args ≠ st.currentActivityArguments then
        let st := { st with currentActivityArguments := some args }
        if st.currentActivityStartedVia = .route then
          ({ st with events := st.events ++ [.switchedTo current.id (getPageArguments st.loc)] },
           none)
        else
          (st, some "Implementation error: cannot refresh an activity that was not started via a route.")
      else (st, none)
    else (st, none)

/-- JavaScript `s.split(c)` on strings. -/
def jsSplitStr (c : Char) (s : String) : List String :=
  (splitOnChar c s.data).map String.mk

/-- The element name `registerComponent` derives for a constructor: the
class-name segment after the last underscore (falling back to the whole name
when that segment is empty), kebab-cased with a "component-" prefix. -/
def derivedTag (ctor : Ctor) : String :=
  let lastSeg := ((jsSplitStr '_' ctor.name).getLast?).getD ""
  let base := if lastSeg = "" then ctor.name else lastSeg
  "component-" ++ toKebabCase base

/-- `registerComponent(component, undefined, true)`: an already-defined
element name is returned silently without re-defining, otherwise the name is
defined in the custom-elements registry. -/
def registerComponentSilently (ctor : Ctor) (st : AppSt) : AppSt × String :=
  match lookupKey (derivedTag ctor) st.registryTags with
  | some _ => (st, derivedTag ctor)
  | none =>
    ({ st with registryTags := st.registryTags ++ [(derivedTag ctor, ctor)] },
      derivedTag ctor)

/-- The local `startActivity` closure of `routeChanged`, with binding "route". -/
def startActivityOnRoute (r : Ctor) (initial : Bool) (st : AppSt) : AppSt × Option String :=
  let st := { st with currentlyConstructedActivity := some r.id }
  let p := registerComponentSilently r st
  match startActivityViaTag p.2 initial (getPageArguments p.1.loc) p.1 with
  | (st2, some e) => (st2, some e)
  | (st2, none) =>
    let st3 := { st2 with currentActivityStartedVia := .route }
    hashChange true st3

/-- The `SELF_POPULATE_ROUTING_HISTORY` loop body: `routeSplit.length`
invocations of `startActivity` with the same constructor (a thrown error
aborts the remaining iterations). -/
def selfPopulateLoop (r : Ctor) : Nat → AppSt → AppSt × Option String
  | 0, st => (st, none)
  | n + 1, st =>
    match startActivityOnRoute r true st with
    | (st2, some e) => (st2, some e)
    | (st2, none) => selfPopulateLoop r n st2

/-- The first route override whose check matches. -/
def findFirstOverride (routeSplit : List String) : List RouteOverride → Option RouteOverride
  | [] => none
  | o :: rest => if o.check routeSplit then some o else findFirstOverride routeSplit rest

/-- The part of `routeChanged` after the refresh branch: overrides, then the
route table, then the not-found handler. -/
def routeResolutionPhase (initial : Bool) (route : String) (st : AppSt) :
    AppSt × Option String :=
  let routeSplit := jsSplitStr '/' route
  match findFirstOverride routeSplit st.routeOverrides with
  | some o =>
    match o.execute with
    | .inl _ => (st, none)
    | .inr activity =>
      let p := registerComponentSilently activity st
      let st1 := { p.1 with currentActivityStartedVia := .routeOverride,
                            currentlyConstructedActivity := some activity.id }
      let navArgs :=
        match o.args with
        | some f => f routeSplit
        | none => getPageArguments st1.loc
      match startActivityViaTag p.2 (st1.navigationCounter = 1) navArgs st1 with
      | (st2, some e) => (st2, some e)
      | (st2, none) => hashChange true st2
  | none =>
    let st := { st with currentRoute := route }
    match lookupKey route st.routes with
    | some ctor =>
      if initial then selfPopulateLoop ctor routeSplit.length st
      else startActivityOnRoute ctor false st
    | none =>
      match st.notFoundActivity with
      | some nf => startActivityOnRoute nf initial st
      | none => (st, some "No activity exists at this route, and there is no handler for 404s.")

/-- `routeChanged`. -/
def routeChanged (initial : Bool) (st : AppSt) : AppSt × Option String :=
  let route := st.loc.pathname
  let st := if initial = false then { st with navigated := true } else st
  let st := { st with navigationCounter := st.navigationCounter + 1 }
  if st.currentRoute = route then
    match lookupKey route st.routes with
    | none => (st, some "TypeError: this.routes at route is not a function")
    | some ctor =>
      if some ctor.id = st.currentlyConstructedActivity then
        if jsHash st.loc = st.lastHash then refreshCurrentActivity st
        else hashChange false st
      else routeResolutionPhase initial route st
  else routeResolutionPhase initial route st

/-- The query-string encoding of `goto`: `?k1=v1&k2=v2...`, values raw. -/
def encodeData : Option PageArgs → String
  | none => ""
  | some d =>
    String.join (d.enum.map (fun p =>
      (if p.1 = 0 then "?" else "&") ++ p.2.1 ++ "=" ++ p.2.2))

/-- `goto`. -/
/- `forceReplaceState` only selects `history.replaceState` over `pushState`;
the resulting location is identical, and the history stack itself is host
state outside the model. -/
def goto (route : String) (data : Option PageArgs) (_forceReplaceState : Bool)
    (st : AppSt) : AppSt × Option String :=
  let routeNameStripped :=
    if route.data.head? = some '/' then String.mk (route.data.drop 1) else route
  if st.started = false then
    (st, some "Application has not started yet. Call Application.start() first.")
  else
    let extra := encodeData data
    let full := "/" ++ routeNameStripped ++ extra
    let pathname := String.mk ((splitOnChar '?' full.data).headD [])
    let search :=
      if full.data.contains '?' then String.mk ('?' :: afterFirstChar '?' full.data)
      else ""
    let st := { st with loc := { pathname := pathname, search := search, hash := "" } }
    routeChanged false st

/-- `generateRouteHistoryFromCurrentRoute`. -/
def generateRouteHistoryFromCurrentRoute (pathname : String) : List String :=
  if pathname = "/" then ["/"]
  else
    let parts := jsSplitStr '/' pathname
    (List.range parts.length).map (fun i =>
      String.intercalate "/" (parts.take i) ++ "/" ++ parts.getD i "")

/-- `back`. -/
def back (st : AppSt) : AppSt × Option String :=
  if st.started = false then
    (st, some "Application has not started yet. Call Application.start() first.")
  else if st.navigated then ({ st with events := st.events ++ [.historyBack] }, none)
  else
    let rh := generateRouteHistoryFromCurrentRoute st.loc.pathname
    if 2 ≤ rh.length then
      match rh.get? (rh.length - 2) with
      | some prev => goto prev none false st
      | none => goto "/" none false st
    else goto "/" none false st

/-- `registerFixedComponent`: styles and records the element, appends it to
the root, and (once connected) recalculates the activity size. -/
def registerFixedComponent (anchor : Anchor) (tag : String) (width height : Nat)
    (st : AppSt) : AppSt × Option String :=
  if st.started = false then
    (st, some "Application has not started yet. Call Application.start() first.")
  else
    let region : FixedRegion :=
      { anchor := anchor, width := width, height := height, hiddenStyle := false }
    let child : Elem :=
      { id := st.nextId, tag := tag, isActivity := false, destroyed := false,
        animate := false, modals := [], hooks := [], hasRefresh := false, title := none }
    let st := { st with fixedRegions := st.fixedRegions ++ [region],
                        children := st.children ++ [child],
                        nextId := st.nextId + 1 }
    (calculateActivitySize st, none)

end Application

/-! ## Supporting lemmas for the registration claims. -/

theorem lookupKey_setKey_ne {α : Type} (k k' : String) (v : α) (m : List (String × α))
    (h : k' ≠ k) : lookupKey k (setKey k' v m) = lookupKey k m := by
  induction m with
  | nil => simp [setKey, lookupKey, h]
  | cons p rest ih =>
    obtain ⟨a, b⟩ := p
    by_cases ha : a = k'
    · subst ha
      simp [setKey, lookupKey, h, Ne.symm h]
    · by_cases hb : a = k <;> simp [setKey, lookupKey, ha, hb, ih, Ne.symm h]

namespace ActivityP4

theorem root_append (r : String) : ActivityRouteRoot ++ r = r := by
  apply String.ext
  rw [String.data_append]
  rfl

/-- One registration preserves the invariant, every existing route binding,
and the default marker. -/
theorem RegisterActivity_preserves (a : ActClass) (r : String) (st : RegSt)
    (hInv : Inv st) :
    Inv (RegisterActivity a r st).1 ∧
    (∀ k v, lookupKey k st.registeredActivities = some v →
      lookupKey k (RegisterActivity a r st).1.registeredActivities = some v) ∧
    (∀ x, st.defaultActivity = some x →
      (RegisterActivity a r st).1.defaultActivity = some x) := by
  by_cases hsw : a.hasSwitchedTo
  case neg =>
    have hres : (RegisterActivity a r st).1 = st := by
      unfold RegisterActivity
      simp [hsw]
    rw [hres]
    exact ⟨hInv, fun _ _ h => h, fun _ h => h⟩
  case pos =>
    by_cases hr : r = ""
    case pos =>
      subst hr
      rcases hd : st.defaultActivity with _ | x
      case some =>
        have hres : (RegisterActivity a "" st).1 = st := by
          unfold RegisterActivity
          simp [hsw, hd]
        rw [hres]
        exact ⟨hInv, fun _ _ h => h, fun _ h => hd.trans h⟩
      case none =>
        by_cases hmem : "activity-default" ∈ st.customElems
        case pos =>
          have hres : (RegisterActivity a "" st).1 =
              { st with defaultActivity := some "activity-default" } := by
            unfold RegisterActivity defineAndRecord
            simp [hsw, hd, hmem]
          rw [hres]
          refine ⟨?_, fun _ _ h => h, fun _ h => nomatch h⟩
          intro _
          simp
        case neg =>
          have hres : (RegisterActivity a "" st).1 =
              { st with
                defaultActivity := some "activity-default",
                customElems := st.customElems ++ ["activity-default"],
                registeredActivities :=
                  setKey (ActivityRouteRoot ++ "") "activity-default"
                    st.registeredActivities } := by
            unfold RegisterActivity defineAndRecord
            simp [hsw, hd, hmem]
          rw [hres]
          refine ⟨?_, ?_, fun _ h => nomatch h⟩
          · intro _
            simp
          · intro k v hk
            by_cases hk0 : ActivityRouteRoot ++ "" = k
            · exfalso
              have hroot : (ActivityRouteRoot ++ "" : String) = ActivityRouteRoot := by decide
              rw [hroot] at hk0
              subst hk0
              have hdef := hInv (by simp [hk])
              rw [hd] at hdef
              cases hdef
            · rw [lookupKey_setKey_ne _ _ _ _ hk0]
              exact hk
    case neg =>
      rcases hl : lookupKey (ActivityRouteRoot ++ r) st.registeredActivities with _ | w
      case some =>
        have hres : (RegisterActivity a r st).1 = st := by
          unfold RegisterActivity
          simp [hsw, hr, hl]
        rw [hres]
        exact ⟨hInv, fun _ _ h => h, fun _ h => h⟩
      case none =>
        by_cases hmem : ("activity-" ++ r) ∈ st.customElems
        case pos =>
          have hres : (RegisterActivity a r st).1 = st := by
            unfold RegisterActivity defineAndRecord
            simp [hsw, hr, hl, hmem]
          rw [hres]
          exact ⟨hInv, fun _ _ h => h, fun _ h => h⟩
        case neg =>
          have hres : (RegisterActivity a r st).1 =
              { st with
                customElems := st.customElems ++ ["activity-" ++ r],
                registeredActivities :=
                  setKey (ActivityRouteRoot ++ r) ("activity-" ++ r)
                    st.registeredActivities } := by
            unfold RegisterActivity defineAndRecord
            simp [hsw, hr, hl, hmem]
          rw [hres]
          have hne : ActivityRouteRoot ++ r ≠ ActivityRouteRoot := by
            intro hc
            apply hr
            have hdata := congrArg String.data hc
            rw [String.data_append] at hdata
            have hrd : r.data = [] := by
              simpa [ActivityRouteRoot] using hdata
            exact String.ext (by simp [hrd])
          refine ⟨?_, ?_, fun _ h => h⟩
          · intro hsome
            apply hInv
            have : lookupKey ActivityRouteRoot
                (setKey (ActivityRouteRoot ++ r) ("activity-" ++ r)
                  st.registeredActivities) =
                lookupKey ActivityRouteRoot st.registeredActivities :=
              lookupKey_setKey_ne _ _ _ _ hne
            simpa [this] using hsome
          · intro k v hk
            by_cases hk0 : ActivityRouteRoot ++ r = k
            · subst hk0
              rw [hk] at hl
              cases hl
            · rw [lookupKey_setKey_ne _ _ _ _ hk0]
              exact hk

/-- The preservation properties extend to arbitrary registration sequences. -/
theorem runRegs_preserves (ops : List (ActClass × String)) (st : RegSt) (hInv : Inv st) :
    Inv (runRegs ops st) ∧
    (∀ k v, lookupKey k st.registeredActivities = some v →
      lookupKey k (runRegs ops st).registeredActivities = some v) ∧
    (∀ x, st.defaultActivity = some x → (runRegs ops st).defaultActivity = some x) := by
  induction ops generalizing st with
  | nil => exact ⟨hInv, fun _ _ h => h, fun _ h => h⟩
  | cons op rest ih =>
    obtain ⟨hInv1, hkeep1, hdef1⟩ := RegisterActivity_preserves op.1 op.2 st hInv
    obtain ⟨hInv2, hkeep2, hdef2⟩ := ih (RegisterActivity op.1 op.2 st).1 hInv1
    refine ⟨hInv2, ?_, ?_⟩
    · intro k v hk
      exact hkeep2 k v (hkeep1 k v hk)
    · intro x hx
      exact hdef2 x (hdef1 x hx)

end ActivityP4

/-! ## Field-preservation lemmas for the Application operations. -/

namespace Application

theorem calc_children (st : AppSt) : (calculateActivitySize st).children = st.children := by
  unfold calculateActivitySize
  split_ifs <;> rfl

theorem calc_events (st : AppSt) : (calculateActivitySize st).events = st.events := by
  unfold calculateActivitySize
  split_ifs <;> rfl

theorem calc_started (st : AppSt) : (calculateActivitySize st).started = st.started := by
  unfold calculateActivitySize
  split_ifs <;> rfl

theorem calc_loc (st : AppSt) : (calculateActivitySize st).loc = st.loc := by
  unfold calculateActivitySize
  split_ifs <;> rfl

theorem calc_lastHash (st : AppSt) : (calculateActivitySize st).lastHash = st.lastHash := by
  unfold calculateActivitySize
  split_ifs <;> rfl

theorem calc_hidden (st : AppSt) :
    (calculateActivitySize st).fixedComponentsHidden = st.fixedComponentsHidden := by
  unfold calculateActivitySize
  split_ifs <;> rfl

theorem calc_tag (st : AppSt) :
    (calculateActivitySize st).currentActivityTag = st.currentActivityTag := by
  unfold calculateActivitySize
  split_ifs <;> rfl

theorem calc_args (st : AppSt) :
    (calculateActivitySize st).currentActivityArguments = st.currentActivityArguments := by
  unfold calculateActivitySize
  split_ifs <;> rfl

theorem hide_children (st : AppSt) : (hideFixedComponents st).1.children = st.children := by
  unfold hideFixedComponents
  split_ifs <;> simp [calc_children]

theorem hide_events (st : AppSt) : (hideFixedComponents st).1.events = st.events := by
  unfold hideFixedComponents
  split_ifs <;> simp [calc_events]

theorem hide_lastHash (st : AppSt) : (hideFixedComponents st).1.lastHash = st.lastHash := by
  unfold hideFixedComponents
  split_ifs <;> simp [calc_lastHash]

theorem hide_loc (st : AppSt) : (hideFixedComponents st).1.loc = st.loc := by
  unfold hideFixedComponents
  split_ifs <;> simp [calc_loc]

theorem hide_started (st : AppSt) : (hideFixedComponents st).1.started = st.started := by
  unfold hideFixedComponents
  split_ifs <;> simp [calc_started]

theorem hide_tag (st : AppSt) :
    (hideFixedComponents st).1.currentActivityTag = st.currentActivityTag := by
  unfold hideFixedComponents
  split_ifs <;> simp [calc_tag]

theorem hide_err_none (st : AppSt) (h : st.started = true) :
    (hideFixedComponents st).2 = none := by
  unfold hideFixedComponents
  split_ifs with h1 h2
  · rfl
  · rw [h] at h2
    cases h2
  · rfl

theorem hide_hidden (st : AppSt) (h : st.started = true) :
    (hideFixedComponents st).1.fixedComponentsHidden = true := by
  unfold hideFixedComponents
  split_ifs with h1 h2
  · exact h1
  · rw [h] at h2
    cases h2
  · simp [calc_hidden]

theorem show_children (st : AppSt) : (showFixedComponents st).1.children = st.children := by
  unfold showFixedComponents
  split_ifs <;> simp [calc_children]

theorem show_events (st : AppSt) : (showFixedComponents st).1.events = st.events := by
  unfold showFixedComponents
  split_ifs <;> simp [calc_events]

theorem show_lastHash (st : AppSt) : (showFixedComponents st).1.lastHash = st.lastHash := by
  unfold showFixedComponents
  split_ifs <;> simp [calc_lastHash]

theorem show_loc (st : AppSt) : (showFixedComponents st).1.loc = st.loc := by
  unfold showFixedComponents
  split_ifs <;> simp [calc_loc]

theorem show_started (st : AppSt) : (showFixedComponents st).1.started = st.started := by
  unfold showFixedComponents
  split_ifs <;> simp [calc_started]

theorem show_tag (st : AppSt) :
    (showFixedComponents st).1.currentActivityTag = st.currentActivityTag := by
  unfold showFixedComponents
  split_ifs <;> simp [calc_tag]

theorem show_err_none (st : AppSt) (h : st.started = true) :
    (showFixedComponents st).2 = none := by
  unfold showFixedComponents
  split_ifs with h1 h2
  · rfl
  · rw [h] at h2
    cases h2
  · rfl

theorem setup_children (args : PageArgs) (a : Elem) (st : AppSt) :
    (setupActivity args a st).1.children = st.children := by
  unfold setupActivity
  split <;> split_ifs <;> rfl

theorem getCurrentActivity_lastHash (st : AppSt) (x : String) :
    getCurrentActivity { st with lastHash := x } = getCurrentActivity st := rfl

theorem destroy_loc (i : Nat) (s : AppSt) : (destroyAllModalsOn i s).loc = s.loc := rfl

theorem destroy_events (i : Nat) (s : AppSt) :
    (destroyAllModalsOn i s).events = s.events := rfl

theorem destroy_started (i : Nat) (s : AppSt) :
    (destroyAllModalsOn i s).started = s.started := rfl

theorem hide_pair (s : AppSt) (h : s.started = true) :
    hideFixedComponents s = ((hideFixedComponents s).1, none) := by
  rcases hp : hideFixedComponents s with ⟨a, b⟩
  have hb := hide_err_none s h
  rw [hp] at hb
  have hb' : b = none := hb
  rw [hb']

theorem show_pair (s : AppSt) (h : s.started = true) :
    showFixedComponents s = ((showFixedComponents s).1, none) := by
  rcases hp : showFixedComponents s with ⟨a, b⟩
  have hb := show_err_none s h
  rw [hp] at hb
  have hb' : b = none := hb
  rw [hb']

/-- A convenient fully-specified example state: a freshly started application
with nothing registered. -/
def baseSt : AppSt where
  started := true
  navigated := false
  navigationCounter := 0
  loc := { pathname := "/", search := "", hash := "" }
  currentRoute := ""
  currentlyConstructedActivity := none
  currentActivityStartedVia := .route
  currentActivityTag := none
  currentActivityArguments := none
  lastHash := ""
  titleText := "app"
  applicationName := "app"
  children := []
  registryTags := []
  routes := []
  routeOverrides := []
  notFoundActivity := none
  fixedRegions := []
  fixedComponentsHidden := false
  insets := zeroInsets
  calcInProgress := false
  throwFatalOnNullModalObject := true
  nextId := 0
  events := []

/-- The application before `start()` has completed. -/
def preStartSt : AppSt := { baseSt with started := false }

/-- The measured shape of a fixed region (anchor and extent), which hiding
and showing must preserve. -/
def regionShape (r : FixedRegion) : Anchor × Nat × Nat := (r.anchor, r.width, r.height)

/-- The accumulation step of `calculateActivitySize` as a named function. -/
def sumStep (acc : Insets) (r : FixedRegion) : Insets :=
  match r.anchor with
  | .left => { acc with left := acc.left + r.width }
  | .right => { acc with right := acc.right + r.width }
  | .bottom => { acc with bottom := acc.bottom + r.height }
  | .top => { acc with top := acc.top + r.height }

theorem sumRegions_eq_foldl (regs : List FixedRegion) :
    sumRegions regs = regs.foldl sumStep zeroInsets := rfl

theorem sumStep_restyle (b : Bool) (acc : Insets) (r : FixedRegion) :
    sumStep acc { r with hiddenStyle := b } = sumStep acc r := by
  rcases r with ⟨a, w, h, s⟩
  cases a <;> rfl

theorem foldl_sumStep_restyle (b : Bool) (regs : List FixedRegion) :
    ∀ acc : Insets,
      (regs.map (fun r => { r with hiddenStyle := b })).foldl sumStep acc =
        regs.foldl sumStep acc := by
  induction regs with
  | nil => intro acc; rfl
  | cons r rest ih =>
    intro acc
    simp only [List.map_cons, List.foldl_cons, sumStep_restyle]
    exact ih _

theorem sumRegions_restyle (b : Bool) (regs : List FixedRegion) :
    sumRegions (regs.map (fun r => { r with hiddenStyle := b })) = sumRegions regs := by
  rw [sumRegions_eq_foldl, sumRegions_eq_foldl, foldl_sumStep_restyle]

theorem map_shape_restyle (b : Bool) (regs : List FixedRegion) :
    ((regs.map (fun r => { r with hiddenStyle := b })).map regionShape) =
      regs.map regionShape := by
  induction regs with
  | nil => rfl
  | cons r rest ih => simp [regionShape, ih]

theorem restyle_comp (b c : Bool) :
    ((fun r : FixedRegion => { r with hiddenStyle := c }) ∘
      (fun r : FixedRegion => { r with hiddenStyle := b })) =
    (fun r : FixedRegion => { r with hiddenStyle := c }) := by
  funext r
  rcases r with ⟨a, w, h, s⟩
  rfl

theorem map_restyle_restyle (b c : Bool) (regs : List FixedRegion) :
    ((regs.map (fun r => { r with hiddenStyle := b })).map
        (fun r => { r with hiddenStyle := c })) =
      regs.map (fun r => { r with hiddenStyle := c }) := by
  induction regs with
  | nil => rfl
  | cons r rest ih => simp_all

/-- Example state for the fixed-region scenario: one region registered at the
bottom with measured height 40. -/
def st6ex : AppSt :=
  { baseSt with fixedRegions := [⟨Anchor.bottom, 0, 40, false⟩] }

/-- Example overlay state for the already-open-token scenario: the active
screen holds a live modal tagged with token "x" and the fragment is `#x`. -/
def c7modal : Modal :=
  { tag := "m", triggeredByHash := some "x", mtype := .hash, destroyed := false }

def c7act : Elem :=
  { id := 0, tag := "component-a", isActivity := true, destroyed := false,
    animate := false, modals := [c7modal], hooks := [], hasRefresh := false,
    title := none }

def c7st : AppSt :=
  { baseSt with
    loc := { pathname := "/", search := "", hash := "#x" },
    currentActivityTag := some "component-a",
    children := [c7act] }

end Application

/-! ## Claim C6, C10, C7 theorems. -/

namespace Application

/-- C6: hiding fixed regions writes 0px to all four activity inset
properties regardless of the registered regions, and showing them again
recomputes each inset as the by-anchor sum of the registered regions'
measured extents, with the registered regions (anchor and extent) unchanged,
hence without any re-registration. -/
theorem c6_hide_show_insets (st : AppSt) (h1 : st.started = true)
    (h2 : st.fixedComponentsHidden = false) (h3 : st.calcInProgress = false) :
    (hideFixedComponents st).2 = none ∧
    (hideFixedComponents st).1.insets = zeroInsets ∧
    (showFixedComponents (hideFixedComponents st).1).2 = none ∧
    (showFixedComponents (hideFixedComponents st).1).1.insets =
      sumRegions st.fixedRegions ∧
    (showFixedComponents (hideFixedComponents st).1).1.fixedRegions.map regionShape =
      st.fixedRegions.map regionShape := by
  have hhide : hideFixedComponents st =
      ({ st with
         fixedRegions := st.fixedRegions.map (fun r => { r with hiddenStyle := true }),
         fixedComponentsHidden := true,
         insets := zeroInsets }, none) := by
    unfold hideFixedComponents calculateActivitySize
    simp [h1, h2]
  have hshow : showFixedComponents
      { st with
        fixedRegions := st.fixedRegions.map (fun r => { r with hiddenStyle := true }),
        fixedComponentsHidden := true,
        insets := zeroInsets } =
      ({ st with
         fixedRegions := st.fixedRegions.map (fun r => { r with hiddenStyle := false }),
         fixedComponentsHidden := false,
         insets := sumRegions st.fixedRegions }, none) := by
    unfold showFixedComponents calculateActivitySize
    by_cases hregs : st.fixedRegions = []
    · simp [h1, h3, hregs, sumRegions]
    · have hmapne : st.fixedRegions.map (fun r => { r with hiddenStyle := true }) ≠ [] := by
        simpa using hregs
      simp [h1, h3, hmapne, hregs, restyle_comp, sumRegions_restyle]
  rw [hhide]
  dsimp only
  rw [hshow]
  exact ⟨rfl, rfl, rfl, rfl, map_shape_restyle false st.fixedRegions⟩

/-- Concrete instantiation of `c6_hide_show_insets`: a single bottom region
of measured height 40; hiding zeroes all four insets, showing restores the
bottom inset to 40px. -/
theorem c6_hide_show_insets_witness :
    st6ex.started = true ∧ st6ex.fixedComponentsHidden = false ∧
    (hideFixedComponents st6ex).1.insets = zeroInsets ∧
    (showFixedComponents (hideFixedComponents st6ex).1).1.insets = ⟨0, 0, 40, 0⟩ := by
  have h := c6_hide_show_insets st6ex rfl rfl rfl
  refine ⟨rfl, rfl, h.2.1, ?_⟩
  rw [h.2.2.2.1]
  rfl

/-- C10 (amended): before `start()` completes, `goto`, `back`,
`registerFixedComponent` and `hideFixedComponents` throw the not-started
error and leave the state unchanged, while `showFixedComponents` returns
without throwing and without mutating anything (fixed regions are never
hidden before start, and on that path it returns before the started check). -/
theorem c10_prestart_guards (st : AppSt) (h1 : st.started = false)
    (h2 : st.fixedComponentsHidden = false) :
    (∀ route data repl, goto route data repl st =
      (st, some "Application has not started yet. Call Application.start() first.")) ∧
    back st =
      (st, some "Application has not started yet. Call Application.start() first.") ∧
    (∀ a tag w h, registerFixedComponent a tag w h st =
      (st, some "Application has not started yet. Call Application.start() first.")) ∧
    hideFixedComponents st =
      (st, some "Application has not started yet. Call Application.start() first.") ∧
    showFixedComponents st = (st, none) := by
    refine ⟨?_, ?_, ?_, ?_, ?_⟩
    · intro route data repl
      unfold goto
      simp [h1]
    · unfold back
      simp [h1]
    · intro a tag w h
      unfold registerFixedComponent
      simp [h1]
    · unfold hideFixedComponents
      simp [h1, h2]
    · unfold showFixedComponents
      simp [h2]

/-- Counterexample to C10 as stated: on the freshly constructed (not yet
started) application, `showFixedComponents` does not throw; it returns
normally (the claim says every listed call throws before start). -/
theorem c10_counterexample :
    showFixedComponents preStartSt = (preStartSt, none) := rfl

/-- Concrete instantiation of `c10_prestart_guards` on the pre-start state. -/
theorem c10_prestart_guards_witness :
    preStartSt.started = false ∧ preStartSt.fixedComponentsHidden = false ∧
    back preStartSt =
      (preStartSt,
        some "Application has not started yet. Call Application.start() first.") :=
  ⟨rfl, rfl, (c10_prestart_guards preStartSt rfl rfl).2.1⟩

/-- C7: a fragment-change event whose token matches an overlay already
tagged with that token (and not destroyed) on the active screen's container
changes nothing except re-asserting the fixed-region hidden state: no throw,
children (hence overlays) untouched, no factory call or attachment recorded,
fixed regions hidden, and only the last-hash bookkeeping updated. -/
theorem c7_existing_overlay_noop (st : AppSt) (act : Elem) (m : Modal)
    (h1 : st.started = true)
    (hcur : getCurrentActivity st = .ok act)
    (hm : m ∈ act.modals)
    (htok : m.triggeredByHash = some (jsHash st.loc))
    (_hnd : m.destroyed = false)
    (hchange : jsHash st.loc ≠ st.lastHash) :
    (hashChange false st).2 = none ∧
    (hashChange false st).1.children = st.children ∧
    (hashChange false st).1.events = st.events ∧
    (hashChange false st).1.fixedComponentsHidden = true ∧
    (hashChange false st).1.lastHash = jsHash st.loc := by
  have hcur' : getCurrentActivity { st with lastHash := jsHash st.loc } = .ok act := by
    rw [getCurrentActivity_lastHash]
    exact hcur
  have hany : act.modals.any (fun mm => mm.triggeredByHash == some (jsHash st.loc)) = true := by
    rw [List.any_eq_true]
    exact ⟨m, hm, by simp [htok]⟩
  have hres : hashChange false st =
      hideFixedComponents { st with lastHash := jsHash st.loc } := by
    unfold hashChange
    simp [hchange, hcur', hany]
  rw [hres]
  have hstarted' : ({ st with lastHash := jsHash st.loc } : AppSt).started = true := h1
  exact ⟨hide_err_none _ hstarted', by rw [hide_children], by rw [hide_events],
    hide_hidden _ hstarted', by rw [hide_lastHash]⟩

theorem attachModalStep_fst_events (h mtag : String) (aid : Nat) (s : AppSt)
    (hs : s.started = true) :
    (attachModalStep h mtag aid s).1.events = s.events ++ [Ev.modalAttached h mtag] := by
  unfold attachModalStep
  rw [hide_pair s hs]
  dsimp only [attachNewModal]
  rw [hide_events]

theorem attachModalStep_snd (h mtag : String) (aid : Nat) (s : AppSt)
    (hs : s.started = true) :
    (attachModalStep h mtag aid s).2 = none := by
  unfold attachModalStep
  rw [hide_pair s hs]

theorem nullModalFallback_fst_events (s : AppSt) :
    (nullModalFallback s).1.events = s.events := by
  unfold nullModalFallback
  have ha := show_events s
  rcases hp : showFixedComponents s with ⟨a, b⟩
  rw [hp] at ha
  rcases b with _ | e
  · dsimp only
    split <;> exact ha
  · exact ha

theorem mem_of_getLast?_eq {α : Type} {l : List α} {a : α} (h : l.getLast? = some a) :
    a ∈ l := by
  rw [List.getLast?_eq_getElem?] at h
  exact List.getElem?_mem h

theorem setup_loc (args : PageArgs) (a : Elem) (st : AppSt) :
    (setupActivity args a st).1.loc = st.loc := by
  unfold setupActivity
  split <;> split_ifs <;> rfl

theorem setup_started (args : PageArgs) (a : Elem) (st : AppSt) :
    (setupActivity args a st).1.started = st.started := by
  unfold setupActivity
  split <;> split_ifs <;> rfl

theorem setup_tag (args : PageArgs) (a : Elem) (st : AppSt) :
    (setupActivity args a st).1.currentActivityTag = st.currentActivityTag := by
  unfold setupActivity
  split <;> split_ifs <;> rfl

theorem setup_lastHash (args : PageArgs) (a : Elem) (st : AppSt) :
    (setupActivity args a st).1.lastHash = st.lastHash := by
  unfold setupActivity
  split <;> split_ifs <;> rfl

theorem setup_args_field (args : PageArgs) (a : Elem) (st : AppSt) :
    (setupActivity args a st).1.currentActivityArguments = st.currentActivityArguments := by
  unfold setupActivity
  split <;> split_ifs <;> rfl

theorem setup_events_of_activity (args : PageArgs) (a : Elem) (st : AppSt)
    (h : a.isActivity = true) :
    (setupActivity args a st).1.events = st.events ++ [Ev.switchedTo a.id args] := by
  unfold setupActivity
  split
  · simp [h]
  · split_ifs <;> simp [h]

theorem setup_snd_of_activity (args : PageArgs) (a : Elem) (st : AppSt)
    (h : a.isActivity = true) :
    (setupActivity args a st).2 = none := by
  unfold setupActivity
  split
  · simp [h]
  · split_ifs <;> simp [h]

theorem setup_pair (args : PageArgs) (a : Elem) (st : AppSt) (h : a.isActivity = true) :
    setupActivity args a st = ((setupActivity args a st).1, none) := by
  rcases hp : setupActivity args a st with ⟨x, y⟩
  have hy := setup_snd_of_activity args a st h
  rw [hp] at hy
  have hy' : y = none := hy
  rw [hy']

theorem firstLive_none_of_all (tag : String) (l : List Elem)
    (h : ∀ e ∈ l, e.tag ≠ tag) : firstLiveWithTag tag l = none := by
  induction l with
  | nil => rfl
  | cons e rest ih =>
    unfold firstLiveWithTag
    rw [if_neg (fun hc => h e (List.mem_cons_self e rest) hc.1),
      ih (fun x hx => h x (List.mem_cons_of_mem e hx))]
    rfl

theorem lookupKey_append_absent {α : Type} (k : String) (v : α) (l : List (String × α))
    (h : lookupKey k l = none) : lookupKey k (l ++ [(k, v)]) = some v := by
  induction l with
  | nil => simp [lookupKey]
  | cons p rest ih =>
    obtain ⟨a, b⟩ := p
    by_cases ha : a = k
    · rw [lookupKey, if_pos ha] at h
      cases h
    · rw [lookupKey, if_neg ha] at h
      rw [List.cons_append, lookupKey, if_neg ha]
      exact ih h

theorem splitOnChar_prepend_not_mem (c : Char) (l r : List Char) (h : c ∉ l) :
    splitOnChar c (l ++ c :: r) = l :: splitOnChar c r := by
  induction l with
  | nil =>
    show splitOnChar c (c :: r) = [] :: splitOnChar c r
    have hunf : splitOnChar c (c :: r) =
        match splitOnChar c r with
        | [] => [[]]
        | h :: t => if c = c then [] :: h :: t else (c :: h) :: t := rfl
    rcases hs : splitOnChar c r with _ | ⟨h0, t⟩
    · exact absurd hs (splitOnChar_ne_nil c r)
    · rw [hunf, hs]
      simp
  | cons x xs ih =>
    have hx : x ≠ c := fun hc => h (hc ▸ List.mem_cons_self x xs)
    have hxs : c ∉ xs := fun hc => h (List.mem_cons_of_mem x hc)
    show splitOnChar c (x :: (xs ++ c :: r)) = (x :: xs) :: splitOnChar c r
    have hunf : splitOnChar c (x :: (xs ++ c :: r)) =
        match splitOnChar c (xs ++ c :: r) with
        | [] => [[]]
        | h :: t => if x = c then [] :: h :: t else (x :: h) :: t := rfl
    rw [hunf, ih hxs]
    simp [hx]

set_option maxRecDepth 4000 in
/-- C3: the overlay token is exactly the fragment portion before its first
the first `?` (for any `#token?suffix` fragment, `?`-free token); `hashChange`
passes the `getHashArguments` map to the factory registered under that token
on the active screen; the map construction is last-key-wins (JavaScript
object assignment overwrites); and the fragment `#checkout?qty=2` decodes to
token "checkout" with arguments mapping "qty" to the JSON number 2. -/
theorem c3_token_split_and_factory_args :
    (∀ (token suffix : String) (loc : Loc),
      '?' ∉ token.data →
      loc.hash = "#" ++ token ++ "?" ++ suffix →
      jsHash loc = token) ∧
    (∀ (st : AppSt) (act : Elem) (f : Factory) (args : HashArgs),
      st.started = true →
      jsHash st.loc ≠ "" →
      jsHash st.loc ≠ st.lastHash →
      getCurrentActivity st = .ok act →
      act.modals.any (fun mm => mm.triggeredByHash == some (jsHash st.loc)) = false →
      lookupKey (jsHash st.loc) act.hooks = some f →
      getHashArguments st.loc = .ok args →
      (hashChange false st).1.events =
        st.events ++ [Ev.factoryCalled (jsHash st.loc) args] ++
          (match f args with
           | some mtag => [Ev.modalAttached (jsHash st.loc) mtag]
           | none => [])) ∧
    (∀ (m : HashArgs) (k : String) (v : JValue), lookupKey k (setKey k v m) = some v) ∧
    (jsHash { pathname := "/", search := "", hash := "#checkout?qty=2" } = "checkout" ∧
     getHashArguments { pathname := "/", search := "", hash := "#checkout?qty=2" } =
       Except.ok [("qty", JValue.jnum 2)]) := by
  refine ⟨?_, ?_, fun m k v => lookupKey_setKey k v m, by rfl, by rfl⟩
  · intro token suffix loc hq hloc
    unfold jsHash
    rw [hloc]
    have hdata : ("#" ++ token ++ "?" ++ suffix).data =
        ('#' :: token.data) ++ '?' :: suffix.data := by
      simp [String.data_append]
    rw [hdata, splitOnChar_prepend_not_mem '?' _ _ (by
      intro hmem
      rcases List.mem_cons.mp hmem with h1 | h1
      · cases h1
      · exact hq h1)]
    rfl
  · intro st act f args hstart hne hlast hcur hany hhook hargs
    have hcur' : getCurrentActivity { st with lastHash := jsHash st.loc } = .ok act := by
      rw [getCurrentActivity_lastHash]
      exact hcur
    unfold hashChange
    rw [if_neg (by simp [hlast])]
    dsimp only
    rw [hcur']
    dsimp only
    rw [hany]
    rw [if_neg (by simp)]
    rw [if_pos hne]
    rw [hhook]
    dsimp only
    rw [destroy_loc]
    dsimp only
    rw [hargs]
    dsimp only
    rcases hf : f args with _ | mtag
    · dsimp only
      rw [nullModalFallback_fst_events]
      dsimp only
      rw [destroy_events]
      simp
    · dsimp only
      rw [attachModalStep_fst_events _ _ _ _ ?hs]
      case hs => exact hstart
      dsimp only
      rw [destroy_events]

/-- Example states for the same-route refresh scenario.  `c2ctor` is the
class registered at route "/p"; its instances declare a custom refresh
hook. -/
def c2ctor : Ctor :=
  { id := 5, name := "P", isActivity := true, hasRefresh := true, title := none,
    initHooks := [] }

def c2act : Elem :=
  { id := 0, tag := "component-p", isActivity := true, destroyed := false,
    animate := false, modals := [], hooks := [], hasRefresh := true, title := none }

def c2st : AppSt :=
  { baseSt with
    loc := { pathname := "/p", search := "", hash := "" },
    currentRoute := "/p",
    currentlyConstructedActivity := some 5,
    currentActivityTag := some "component-p",
    currentActivityArguments := some [],
    children := [c2act],
    routes := [("/p", c2ctor)] }

def c2stB : AppSt := { c2st with currentActivityArguments := some [("page", "1")] }

/-- Example states for the refresh scenario with a screen that declares no
custom refresh hook. -/
def c2ctorNR : Ctor :=
  { id := 6, name := "Q", isActivity := true, hasRefresh := false, title := none,
    initHooks := [] }

def c2actNR : Elem :=
  { id := 1, tag := "component-q", isActivity := true, destroyed := false,
    animate := false, modals := [], hooks := [], hasRefresh := false, title := none }

def c2stW : AppSt :=
  { baseSt with
    loc := { pathname := "/q", search := "", hash := "" },
    currentRoute := "/q",
    currentlyConstructedActivity := some 6,
    currentActivityTag := some "component-q",
    currentActivityArguments := some [("page", "1")],
    children := [c2actNR],
    routes := [("/q", c2ctorNR)] }

/-- C2 (amended): a navigation to the same route key as the previously
resolved one with the constructor unchanged and the fragment token unchanged
is treated as a refresh: nothing is thrown, the child list (hence the screen
instance) is untouched, and for a screen started via a route that declares
no custom refresh hook, `switchedTo` is re-invoked exactly when the page
arguments differ from the previously delivered (stringified) arguments,
otherwise nothing is delivered.  (A screen declaring a refresh hook gets
`refresh()` instead, see the counterexample.) -/
theorem c2_same_route_refresh (st : AppSt) (ctor : Ctor) (act : Elem)
    (hroute : st.currentRoute = st.loc.pathname)
    (hlook : lookupKey st.loc.pathname st.routes = some ctor)
    (hctor : st.currentlyConstructedActivity = some ctor.id)
    (hhash : jsHash st.loc = st.lastHash)
    (hcur : getCurrentActivity st = .ok act)
    (hnoref : act.hasRefresh = false)
    (hvia : st.currentActivityStartedVia = Via.route) :
    (routeChanged false st).2 = none ∧
    (routeChanged false st).1.children = st.children ∧
    (st.currentActivityArguments = some (getPageArguments st.loc) →
      (routeChanged false st).1.events = st.events ∧
      (routeChanged false st).1.currentActivityArguments = st.currentActivityArguments) ∧
    (st.currentActivityArguments ≠ some (getPageArguments st.loc) →
      (routeChanged false st).1.events =
        st.events ++ [Ev.switchedTo act.id (getPageArguments st.loc)] ∧
      (routeChanged false st).1.currentActivityArguments =
        some (getPageArguments st.loc)) := by
  have hstep : routeChanged false st = refreshCurrentActivity
      { st with navigated := true, navigationCounter := st.navigationCounter + 1 } := by
    unfold routeChanged
    rw [if_pos (rfl : (false : Bool) = false)]
    dsimp only
    rw [if_pos ?hcr]
    case hcr => exact hroute
    rw [hlook]
    dsimp only
    rw [if_pos ?hct]
    case hct => exact hctor.symm
    rw [if_pos ?hh]
    case hh => exact hhash
  have hcur2 : getCurrentActivity
      { st with navigated := true, navigationCounter := st.navigationCounter + 1 } =
      Except.ok act := hcur
  by_cases harg : st.currentActivityArguments = some (getPageArguments st.loc)
  · have hres : routeChanged false st =
        ({ st with navigated := true, navigationCounter := st.navigationCounter + 1 },
          none) := by
      rw [hstep]
      unfold refreshCurrentActivity
      rw [hcur2]
      dsimp only
      rw [hnoref]
      rw [if_neg (by simp)]
      unfold isPageArgumentsOutdated
      dsimp only
      rw [if_neg (by simp [harg])]
    rw [hres]
    exact ⟨rfl, rfl, fun _ => ⟨rfl, rfl⟩, fun hneq => absurd harg hneq⟩
  · have hres : routeChanged false st =
        ({ st with
            navigated := true,
            navigationCounter := st.navigationCounter + 1,
            currentActivityArguments := some (getPageArguments st.loc),
            events := st.events ++ [Ev.switchedTo act.id (getPageArguments st.loc)] },
          none) := by
      rw [hstep]
      unfold refreshCurrentActivity
      rw [hcur2]
      dsimp only
      rw [hnoref]
      rw [if_neg (by simp)]
      unfold isPageArgumentsOutdated
      dsimp only
      rw [if_pos (by simp [harg])]
      rw [if_pos ?hne2]
      case hne2 => exact fun hh => harg hh.symm
      rw [if_pos ?hv]
      case hv => exact hvia
    rw [hres]
    exact ⟨rfl, rfl, fun heq => absurd heq harg, fun _ => ⟨rfl, rfl⟩⟩

/-- Counterexample to C2 as stated: on a screen declaring a custom refresh
hook, navigating to the same route key with the constructor unchanged does
not behave as "switchedTo exactly when arguments differ, otherwise nothing":
with unchanged arguments the refresh hook still fires (something happens),
and with changed arguments the refresh hook fires instead of `switchedTo`. -/
theorem c2_counterexample :
    c2st.currentActivityArguments = some (getPageArguments c2st.loc) ∧
    (routeChanged false c2st).1.events = [Ev.refreshFired 0] ∧
    c2stB.currentActivityArguments ≠ some (getPageArguments c2stB.loc) ∧
    (routeChanged false c2stB).1.events = [Ev.refreshFired 0] := by
  refine ⟨rfl, ?_, by decide, ?_⟩ <;> rfl

/-- Concrete instantiation of `c2_same_route_refresh`: a refresh-hook-free
screen at "/q" with changed page arguments gets exactly one new
`switchedTo` delivery and is not reconstructed. -/
theorem c2_same_route_refresh_witness :
    c2stW.currentActivityArguments ≠ some (getPageArguments c2stW.loc) ∧
    (routeChanged false c2stW).2 = none ∧
    (routeChanged false c2stW).1.children = c2stW.children ∧
    (routeChanged false c2stW).1.events = [Ev.switchedTo 1 []] := by
  have h := c2_same_route_refresh c2stW c2ctorNR c2actNR rfl rfl rfl rfl rfl rfl rfl
  have hneq : c2stW.currentActivityArguments ≠ some (getPageArguments c2stW.loc) := by
    decide
  obtain ⟨h1, h2, _, h4⟩ := h
  refine ⟨hneq, h1, h2, ?_⟩
  rw [(h4 hneq).1]
  rfl

/-- Example state for the modal-arguments scenario: the active screen
registers a factory under "checkout" and the fragment is `#checkout?qty=2`. -/
def c3act : Elem :=
  { id := 0, tag := "component-shop", isActivity := true, destroyed := false,
    animate := false, modals := [],
    hooks := [("checkout", fun _ => some "m-checkout")], hasRefresh := false,
    title := none }

def c3st : AppSt :=
  { baseSt with
    loc := { pathname := "/", search := "", hash := "#checkout?qty=2" },
    currentActivityTag := some "component-shop",
    children := [c3act] }

/-- Concrete instantiation of `c3_token_split_and_factory_args`: on
`#checkout?qty=2` the factory registered under "checkout" is invoked with
the map sending "qty" to the JSON number 2, and the created modal is tagged
and attached. -/
theorem c3_token_split_and_factory_args_witness :
    jsHash c3st.loc = "checkout" ∧
    (hashChange false c3st).1.events =
      c3st.events ++ [Ev.factoryCalled "checkout" [("qty", JValue.jnum 2)]] ++
        [Ev.modalAttached "checkout" "m-checkout"] := by
  have h := c3_token_split_and_factory_args.2.1 c3st c3act
    (fun _ => some "m-checkout") [("qty", JValue.jnum 2)]
    rfl (by decide) (by decide) rfl rfl rfl rfl
  exact ⟨rfl, h⟩

/-- Concrete instantiation of `c7_existing_overlay_noop`: the fragment `#x`
re-triggers the already-open overlay tagged "x". -/
theorem c7_existing_overlay_noop_witness :
    c7modal ∈ c7act.modals ∧ c7modal.destroyed = false ∧
    (hashChange false c7st).2 = none ∧
    (hashChange false c7st).1.children = c7st.children ∧
    (hashChange false c7st).1.fixedComponentsHidden = true := by
  have h := c7_existing_overlay_noop c7st c7act c7modal rfl rfl
    (by simp [c7act]) (by decide) rfl (by decide)
  exact ⟨by simp [c7act], rfl, h.1, h.2.1, h.2.2.2.1⟩

theorem queryActiveLast_none (tag : String) (ch : List Elem)
    (h : ∀ e ∈ ch, e.tag ≠ tag) : queryActiveLast tag ch = none := by
  unfold queryActiveLast
  rcases hlast : ch.getLast? with _ | e0
  · rfl
  · dsimp only
    rw [if_neg]
    rintro ⟨ht, _⟩
    exact h e0 (mem_of_getLast?_eq hlast) ht

/-- A forced `hashChange` on a state with an empty fragment and a single
live current activity with no modals completes without error and only marks
modals (of which there are none) destroyed in the children. -/
theorem hashChange_true_empty (s : AppSt) (tag : String) (e : Elem)
    (hs : s.started = true)
    (hjs : jsHash s.loc = "")
    (htag : s.currentActivityTag = some tag)
    (hfilter : s.children.filter (fun x => x.tag == tag && !x.destroyed) = [e])
    (hact : e.isActivity = true)
    (hany : e.modals.any (fun m => m.triggeredByHash == some "") = false) :
    (hashChange true s).2 = none ∧
    (hashChange true s).1.children =
      (destroyAllModalsOn e.id { s with lastHash := "" }).children := by
  unfold hashChange
  rw [if_neg (by simp)]
  dsimp only
  rw [hjs]
  unfold getCurrentActivity
  dsimp only
  rw [htag]
  dsimp only
  rw [hfilter]
  rw [show ([e]).getLast? = some e from by simp]
  dsimp only
  rw [if_pos hact]
  dsimp only
  rw [hany]
  rw [if_neg (by simp)]
  rw [if_neg (by simp)]
  have hsD : (destroyAllModalsOn e.id { s with lastHash := "" }).started = true := by
    rw [destroy_started]
    exact hs
  exact ⟨show_err_none _ hsD, show_children _⟩

/-- Starting a not-found (or any fresh) activity constructor on a route,
when its derived tag is unregistered and no child carries that tag and the
location has no fragment, succeeds and attaches a live screen instance with
the derived tag. -/
theorem startActivityOnRoute_fresh (nf : Ctor) (st3 : AppSt)
    (h1 : st3.started = true)
    (hjs : jsHash st3.loc = "")
    (hreg : lookupKey (derivedTag nf) st3.registryTags = none)
    (hfresh : ∀ e ∈ st3.children, e.tag ≠ derivedTag nf)
    (hact : nf.isActivity = true) :
    (startActivityOnRoute nf false st3).2 = none ∧
    ∃ e ∈ (startActivityOnRoute nf false st3).1.children,
      e.tag = derivedTag nf ∧ e.destroyed = false := by
  unfold startActivityOnRoute registerComponentSilently
  dsimp only
  rw [hreg]
  dsimp only
  unfold startActivityViaTag
  dsimp only
  rw [if_neg (by simp [h1])]
  rw [queryActiveLast_none _ _ hfresh]
  dsimp only
  rw [firstLive_none_of_all _ _ hfresh]
  dsimp only
  rw [lookupKey_append_absent _ nf _ hreg]
  dsimp only
  rw [if_pos hact]
  rw [setup_pair _ _ _ ?hsa]
  case hsa => rfl
  dsimp only
  have hhc := hashChange_true_empty
    { (setupActivity (getPageArguments st3.loc)
        { id := st3.nextId, tag := derivedTag nf, isActivity := true,
          destroyed := false, animate := !false, modals := [],
          hooks := nf.initHooks, hasRefresh := nf.hasRefresh, title := nf.title }
        { st3 with
          currentlyConstructedActivity := some nf.id,
          currentActivityTag := some (derivedTag nf),
          currentActivityArguments := some (getPageArguments st3.loc),
          children := st3.children ++
            [{ id := st3.nextId, tag := derivedTag nf, isActivity := true,
               destroyed := false, animate := !false, modals := [],
               hooks := nf.initHooks, hasRefresh := nf.hasRefresh,
               title := nf.title }],
          registryTags := st3.registryTags ++ [(derivedTag nf, nf)],
          nextId := st3.nextId + 1 }).1
      with currentActivityStartedVia := Via.route }
    (derivedTag nf)
    { id := st3.nextId, tag := derivedTag nf, isActivity := true,
      destroyed := false, animate := !false, modals := [],
      hooks := nf.initHooks, hasRefresh := nf.hasRefresh, title := nf.title }
    ?hs ?hjs2 ?htag ?hfilter rfl rfl
  case hs =>
    dsimp only
    rw [setup_started]
    exact h1
  case hjs2 =>
    dsimp only
    rw [setup_loc]
    exact hjs
  case htag =>
    dsimp only
    rw [setup_tag]
  case hfilter =>
    dsimp only
    rw [setup_children]
    dsimp only
    rw [List.filter_append, List.filter_eq_nil_iff.mpr ?hfn]
    case hfn =>
      intro x hx
      simp [beq_eq_false_iff_ne.mpr (hfresh x hx)]
    simp
  obtain ⟨hA, hB⟩ := hhc
  refine ⟨hA, ?_⟩
  rw [hB]
  dsimp only [destroyAllModalsOn]
  rw [setup_children]
  dsimp only
  refine ⟨_, List.mem_map_of_mem _
    (List.mem_append_right _ (List.mem_singleton_self _)), ?_, ?_⟩
  · dsimp only
    split <;> rfl
  · dsimp only
    split <;> rfl

/-- Example constructor and states for the not-found scenario. -/
def c5nf : Ctor :=
  { id := 9, name := "NotFound", isActivity := true, hasRefresh := false,
    title := none, initHooks := [] }

/-- A state that has already resolved the unmatched route "/missing" once
(`currentRoute` points at it) and navigates to it again. -/
def c5cex : AppSt :=
  { baseSt with
    loc := { pathname := "/missing", search := "", hash := "" },
    currentRoute := "/missing",
    notFoundActivity := some c5nf }

/-- A state navigating to the unmatched route "/missing" for the first time. -/
def c5wit : AppSt :=
  { baseSt with
    loc := { pathname := "/missing", search := "", hash := "" },
    currentRoute := "/",
    notFoundActivity := some c5nf }

/-- C5 (amended): on a navigation to a path that matches no registered route
and no route override, and that differs from the currently resolved route,
the router throws the fatal 404 error if and only if no not-found handler is
registered; with a handler registered (whose derived tag is fresh) it starts
the handler's screen instead: no throw, and a live instance with the
handler's tag is attached.  (A repeated navigation to the same unmatched
path throws a TypeError even with a handler registered, see the
counterexample.) -/
theorem c5_not_found_resolution (st : AppSt)
    (h1 : st.started = true)
    (hovr : st.routeOverrides = [])
    (hcr : st.currentRoute ≠ st.loc.pathname)
    (hmiss : lookupKey st.loc.pathname st.routes = none)
    (hjs : jsHash st.loc = "") :
    (st.notFoundActivity = none →
      (routeChanged false st).2 =
        some "No activity exists at this route, and there is no handler for 404s." ∧
      (routeChanged false st).1.children = st.children) ∧
    (∀ nf, st.notFoundActivity = some nf →
      nf.isActivity = true →
      lookupKey (derivedTag nf) st.registryTags = none →
      (∀ e ∈ st.children, e.tag ≠ derivedTag nf) →
      (routeChanged false st).2 = none ∧
      ∃ e ∈ (routeChanged false st).1.children,
        e.tag = derivedTag nf ∧ e.destroyed = false) := by
  have hstep : routeChanged false st =
      routeResolutionPhase false st.loc.pathname
        { st with navigated := true, navigationCounter := st.navigationCounter + 1 } := by
    unfold routeChanged
    rw [if_pos (rfl : (false : Bool) = false)]
    dsimp only
    rw [if_neg ?hr]
    case hr => exact hcr
  rw [hstep]
  unfold routeResolutionPhase
  dsimp only
  rw [hovr]
  dsimp only [findFirstOverride]
  rw [hmiss]
  dsimp only
  rcases hnf2 : st.notFoundActivity with _ | nf
  · dsimp only
    exact ⟨fun _ => ⟨rfl, rfl⟩, fun nf' h => nomatch h⟩
  · dsimp only
    refine ⟨fun h => absurd h (Option.some_ne_none nf), ?_⟩
    intro nf' hnf' hact hreg hfresh
    have hh : nf = nf' := by injection hnf'
    subst hh
    exact startActivityOnRoute_fresh nf _ h1 hjs hreg hfresh hact

/-- Counterexample to C5 as stated: navigating again to the same unmatched
path "/missing" with a not-found handler registered does not start the
handler's screen; the router throws (the refresh branch calls the
unregistered route entry, a TypeError) and no screen is created. -/
theorem c5_counterexample :
    c5cex.notFoundActivity.isSome = true ∧
    lookupKey c5cex.loc.pathname c5cex.routes = none ∧
    (routeChanged false c5cex).2.isSome = true ∧
    (routeChanged false c5cex).1.children = c5cex.children :=
  ⟨rfl, rfl, rfl, rfl⟩

/-- Concrete instantiation of `c5_not_found_resolution`: first navigation to
"/missing" with the handler registered starts the handler's screen, and the
same navigation without a handler throws the fatal 404 error. -/
theorem c5_not_found_resolution_witness :
    ((routeChanged false c5wit).2 = none ∧
      ∃ e ∈ (routeChanged false c5wit).1.children,
        e.tag = derivedTag c5nf ∧ e.destroyed = false) ∧
    (routeChanged false { c5wit with notFoundActivity := none }).2 =
      some "No activity exists at this route, and there is no handler for 404s." := by
  constructor
  · exact (c5_not_found_resolution c5wit rfl rfl (by decide) rfl rfl).2 c5nf rfl rfl rfl
      (by intro e he; cases he)
  · exact ((c5_not_found_resolution { c5wit with notFoundActivity := none }
      rfl rfl (by decide) rfl rfl).1 rfl).1

/-- Number of live (undestroyed) screen instances with the given tag in a
child list. -/
def liveCount (tag : String) : List Elem → Nat
  | [] => 0
  | e :: rest =>
    (if e.tag = tag ∧ e.destroyed = false ∧ e.isActivity = true then 1 else 0)
      + liveCount tag rest

/-- The attached-instance-cache invariant: at most one live screen instance
per screen type. -/
def cacheInvariant (children : List Elem) : Prop :=
  ∀ tag, liveCount tag children ≤ 1

/-- One navigation request: the target tag, the animation flag and the page
arguments handed to `startActivityViaTag`. -/
structure NavOp where
  tag : String
  noAnimation : Bool
  args : PageArgs

/-- A sequence of navigations, each through `startActivityViaTag`. -/
def runNavs (ops : List NavOp) (st : AppSt) : AppSt :=
  ops.foldl (fun s op => (startActivityViaTag op.tag op.noAnimation op.args s).1) st

theorem lt_length_of_getElem?_some {α : Type} {l : List α} {n : Nat} {a : α}
    (h : l[n]? = some a) : n < l.length := by
  induction l generalizing n with
  | nil => simp at h
  | cons x rest ih =>
    cases n with
    | zero => exact Nat.succ_pos rest.length
    | succ m => exact Nat.succ_lt_succ (ih (by simpa using h))

theorem liveCount_append (tag : String) (l1 l2 : List Elem) :
    liveCount tag (l1 ++ l2) = liveCount tag l1 + liveCount tag l2 := by
  induction l1 with
  | nil => simp [liveCount]
  | cons e rest ih =>
    show (if e.tag = tag ∧ e.destroyed = false ∧ e.isActivity = true then 1 else 0)
        + liveCount tag (rest ++ l2)
      = ((if e.tag = tag ∧ e.destroyed = false ∧ e.isActivity = true then 1 else 0)
        + liveCount tag rest) + liveCount tag l2
    rw [ih]
    omega

theorem liveCount_map_destroy (tag : String) (l : List Elem) :
    liveCount tag (l.map destroyActElem) = 0 := by
  induction l with
  | nil => rfl
  | cons e rest ih =>
    have hcond : ¬((destroyActElem e).tag = tag ∧ (destroyActElem e).destroyed = false
        ∧ (destroyActElem e).isActivity = true) := by
      unfold destroyActElem
      cases he : e.isActivity
      · simp [he]
      · simp [he]
    simp only [List.map_cons, liveCount, ih, Nat.add_zero, if_neg hcond]

theorem liveCount_destroyAfter_le (tag : String) (l : List Elem) (i : Nat) :
    liveCount tag (destroyAfter l i) ≤ liveCount tag l := by
  induction l generalizing i with
  | nil => exact Nat.le_refl 0
  | cons e rest ih =>
    cases i with
    | zero =>
      simp only [destroyAfter, liveCount, liveCount_map_destroy]
      omega
    | succ k =>
      simp only [destroyAfter, liveCount]
      exact Nat.add_le_add_left (ih k) _

theorem destroyAfter_length (l : List Elem) (i : Nat) :
    (destroyAfter l i).length = l.length := by
  induction l generalizing i with
  | nil => rfl
  | cons e rest ih =>
    cases i with
    | zero => simp [destroyAfter]
    | succ k => simp [destroyAfter, ih]

theorem destroyAfter_getElem_gt (l : List Elem) (i j : Nat) (h : i < j) :
    (destroyAfter l i)[j]? = (l[j]?).map destroyActElem := by
  induction l generalizing i j with
  | nil => simp [destroyAfter]
  | cons e rest ih =>
    cases j with
    | zero => exact absurd h (Nat.not_lt_zero i)
    | succ m =>
      cases i with
      | zero =>
        have hd : destroyAfter (e :: rest) 0 = e :: rest.map destroyActElem := rfl
        rw [hd, List.getElem?_cons_succ, List.getElem?_cons_succ, List.getElem?_map]
      | succ k =>
        have hd : destroyAfter (e :: rest) (k + 1) = e :: destroyAfter rest k := rfl
        rw [hd, List.getElem?_cons_succ, List.getElem?_cons_succ]
        exact ih k m (Nat.lt_of_succ_lt_succ h)

theorem firstLive_spec (tag : String) (l : List Elem) :
    ∀ (i : Nat) (e : Elem), firstLiveWithTag tag l = some (i, e) →
      l[i]? = some e ∧ e.tag = tag ∧ e.destroyed = false := by
  induction l with
  | nil => intro i e h; exact absurd h (by simp [firstLiveWithTag])
  | cons a rest ih =>
    intro i e h
    simp only [firstLiveWithTag] at h
    by_cases hc : a.tag = tag ∧ a.destroyed = false
    · rw [if_pos hc] at h
      injection h with h2
      injection h2 with hi he
      subst hi
      subst he
      exact ⟨by simp, hc.1, hc.2⟩
    · rw [if_neg hc] at h
      rcases ho : firstLiveWithTag tag rest with _ | p
      · rw [ho] at h
        exact absurd h (by simp)
      · rw [ho] at h
        obtain ⟨k, b⟩ := p
        have h' : some (k + 1, b) = some (i, e) := h
        injection h' with h2
        injection h2 with hi he
        subst hi
        subst he
        obtain ⟨g1, g2, g3⟩ := ih k b ho
        exact ⟨by simpa using g1, g2, g3⟩

theorem firstLive_none_not_mem (tag : String) (l : List Elem)
    (h : firstLiveWithTag tag l = none) :
    ∀ e ∈ l, ¬(e.tag = tag ∧ e.destroyed = false) := by
  induction l with
  | nil => intro e he; cases he
  | cons a rest ih =>
    simp only [firstLiveWithTag] at h
    by_cases hc : a.tag = tag ∧ a.destroyed = false
    · rw [if_pos hc] at h
      exact absurd h (by simp)
    · rw [if_neg hc] at h
      have hrest : firstLiveWithTag tag rest = none := by
        rcases hx : firstLiveWithTag tag rest with _ | q
        · rfl
        · rw [hx] at h
          exact absurd h (by simp)
      intro e he
      rcases List.mem_cons.mp he with rfl | hmem
      · exact hc
      · exact ih hrest e hmem

theorem liveCount_eq_zero (tag : String) (l : List Elem)
    (h : ∀ e ∈ l, ¬(e.tag = tag ∧ e.destroyed = false)) :
    liveCount tag l = 0 := by
  induction l with
  | nil => rfl
  | cons a rest ih =>
    have ha := h a (List.mem_cons_self a rest)
    have hcond : ¬(a.tag = tag ∧ a.destroyed = false ∧ a.isActivity = true) :=
      fun hc => ha ⟨hc.1, hc.2.1⟩
    simp only [liveCount, if_neg hcond, Nat.zero_add]
    exact ih (fun e he => h e (List.mem_cons_of_mem a he))

theorem liveCount_pos (tag : String) (l : List Elem) :
    ∀ (i : Nat) (a : Elem),
      l[i]? = some a → a.tag = tag → a.destroyed = false → a.isActivity = true →
      1 ≤ liveCount tag l := by
  induction l with
  | nil => intro i a h h1 h2 h3; simp at h
  | cons e rest ih =>
    intro i a h h1 h2 h3
    cases i with
    | zero =>
      have h' : some e = some a := by simpa using h
      injection h' with he
      subst he
      have hcond : e.tag = tag ∧ e.destroyed = false ∧ e.isActivity = true := ⟨h1, h2, h3⟩
      simp only [liveCount, if_pos hcond]
      omega
    | succ k =>
      have hrec := ih k a (by simpa using h) h1 h2 h3
      simp only [liveCount]
      omega

theorem liveCount_two (tag : String) (l : List Elem) :
    ∀ (i j : Nat) (a b : Elem), i < j → l[i]? = some a → l[j]? = some b →
      a.tag = tag → a.destroyed = false → a.isActivity = true →
      b.tag = tag → b.destroyed = false → b.isActivity = true →
      2 ≤ liveCount tag l := by
  induction l with
  | nil => intro i j a b hij hi hj a1 a2 a3 b1 b2 b3; simp at hi
  | cons e rest ih =>
    intro i j a b hij hi hj a1 a2 a3 b1 b2 b3
    cases i with
    | zero =>
      have h' : some e = some a := by simpa using hi
      injection h' with he
      subst he
      cases j with
      | zero => exact absurd hij (by omega)
      | succ m =>
        have hb := liveCount_pos tag rest m b (by simpa using hj) b1 b2 b3
        have hcond : e.tag = tag ∧ e.destroyed = false ∧ e.isActivity = true := ⟨a1, a2, a3⟩
        simp only [liveCount, if_pos hcond]
        omega
    | succ k =>
      cases j with
      | zero => exact absurd hij (by omega)
      | succ m =>
        have hrec := ih k m a b (by omega) (by simpa using hi) (by simpa using hj)
          a1 a2 a3 b1 b2 b3
        simp only [liveCount]
        omega

theorem live_unique (tag : String) (l : List Elem) (hinv : liveCount tag l ≤ 1) :
    ∀ (i j : Nat) (a b : Elem), l[i]? = some a → l[j]? = some b →
      a.tag = tag → a.destroyed = false → a.isActivity = true →
      b.tag = tag → b.destroyed = false → b.isActivity = true →
      i = j := by
  intro i j a b hi hj a1 a2 a3 b1 b2 b3
  rcases Nat.lt_trichotomy i j with h | h | h
  · have h2 := liveCount_two tag l i j a b h hi hj a1 a2 a3 b1 b2 b3
    omega
  · exact h
  · have h2 := liveCount_two tag l j i b a h hj hi b1 b2 b3 a1 a2 a3
    omega

theorem queryActiveLast_some (tag : String) (ch : List Elem) (active : Elem)
    (h : queryActiveLast tag ch = some active) :
    ch.getLast? = some active ∧ active.tag = tag ∧ active.destroyed = false := by
  unfold queryActiveLast at h
  rcases hlast : ch.getLast? with _ | e0
  · rw [hlast] at h
    exact absurd h (by simp)
  · rw [hlast] at h
    dsimp only at h
    split_ifs at h with hc
    injection h with he
    subst he
    exact ⟨rfl, hc.1, hc.2⟩

/-- Reuse: navigating to a tag that has a live screen instance in the cache
(at position `i`) succeeds, keeps the cache size (no new sibling), delivers
`switchedTo` to exactly that instance, and destroys every screen instance
attached after it. -/
theorem startActivityViaTag_reuse (activityTag : String) (noAnimation : Bool)
    (args : PageArgs) (st : AppSt) (i : Nat) (a : Elem)
    (hstart : st.started = true)
    (hinv : cacheInvariant st.children)
    (hpure : ∀ e ∈ st.children, e.tag = activityTag → e.isActivity = true)
    (hi : st.children[i]? = some a)
    (ha1 : a.tag = activityTag)
    (ha2 : a.destroyed = false) :
    (startActivityViaTag activityTag noAnimation args st).2 = none ∧
    (startActivityViaTag activityTag noAnimation args st).1.children.length
      = st.children.length ∧
    (startActivityViaTag activityTag noAnimation args st).1.events
      = st.events ++ [Ev.switchedTo a.id args] ∧
    ∀ j b, i < j → st.children[j]? = some b → b.isActivity = true →
      (startActivityViaTag activityTag noAnimation args st).1.children[j]?
        = some { b with destroyed := true } := by
  have hia : a.isActivity = true := hpure a (List.getElem?_mem hi) ha1
  have hilt : i < st.children.length := lt_length_of_getElem?_some hi
  rcases hq : queryActiveLast activityTag st.children with _ | active
  · rcases hf : firstLiveWithTag activityTag st.children with _ | p
    · exact absurd ⟨ha1, ha2⟩ (firstLive_none_not_mem _ _ hf a (List.getElem?_mem hi))
    · obtain ⟨idx, loaded⟩ := p
      obtain ⟨hfi, hf2, hf3⟩ := firstLive_spec activityTag st.children idx loaded hf
      have hfa : loaded.isActivity = true := hpure loaded (List.getElem?_mem hfi) hf2
      have hieq : idx = i :=
        live_unique activityTag st.children (hinv activityTag) idx i loaded a
          hfi hi hf2 hf3 hfa ha1 ha2 hia
      have haeq : loaded = a := by
        rw [hieq] at hfi
        rw [hi] at hfi
        injection hfi with hx
        exact hx.symm
      have hres : startActivityViaTag activityTag noAnimation args st
          = setupActivity args loaded
              { st with
                currentActivityArguments := some args,
                currentActivityTag := some activityTag,
                children := destroyAfter st.children idx } := by
        unfold startActivityViaTag
        dsimp only
        rw [if_neg (by simp [hstart])]
        rw [hq]
        dsimp only
        rw [hf]
      rw [hres]
      subst haeq
      refine ⟨setup_snd_of_activity _ _ _ hfa, ?_, ?_, ?_⟩
      · rw [setup_children]
        exact destroyAfter_length st.children idx
      · rw [setup_events_of_activity _ _ _ hfa]
      · intro j b hij hj hb
        rw [setup_children]
        show (destroyAfter st.children idx)[j]? = some { b with destroyed := true }
        rw [destroyAfter_getElem_gt st.children idx j (by omega)]
        rw [hj]
        show some (destroyActElem b) = some { b with destroyed := true }
        unfold destroyActElem
        rw [if_pos hb]
  · obtain ⟨hlastEq, hq2, hq3⟩ := queryActiveLast_some _ _ _ hq
    have hpos : st.children[st.children.length - 1]? = some active := by
      rw [← List.getLast?_eq_getElem?]
      exact hlastEq
    have hactA : active.isActivity = true :=
      hpure active (mem_of_getLast?_eq hlastEq) hq2
    have hieq : i = st.children.length - 1 :=
      live_unique activityTag st.children (hinv activityTag) i _ a active
        hi hpos ha1 ha2 hia hq2 hq3 hactA
    have haeq : active = a := by
      rw [hieq] at hi
      rw [hi] at hpos
      injection hpos with hx
      exact hx.symm
    have hres : startActivityViaTag activityTag noAnimation args st
        = setupActivity args active { st with currentActivityArguments := some args } := by
      unfold startActivityViaTag
      dsimp only
      rw [if_neg (by simp [hstart])]
      rw [hq]
    rw [hres]
    subst haeq
    refine ⟨setup_snd_of_activity _ _ _ hactA, ?_, ?_, ?_⟩
    · rw [setup_children]
    · rw [setup_events_of_activity _ _ _ hactA]
    · intro j b hij hj hb
      exfalso
      have hjlt : j < st.children.length := lt_length_of_getElem?_some hj
      omega

/-- Invariant preservation: one `startActivityViaTag` call keeps the
at-most-one-live-instance-per-tag property of the cache. -/
theorem startActivityViaTag_preserves_inv (activityTag : String) (noAnimation : Bool)
    (args : PageArgs) (st : AppSt)
    (hinv : cacheInvariant st.children) :
    cacheInvariant (startActivityViaTag activityTag noAnimation args st).1.children := by
  unfold startActivityViaTag
  dsimp only
  by_cases hs : st.started = false
  · rw [if_pos hs]
    exact hinv
  · rw [if_neg hs]
    rcases hq : queryActiveLast activityTag st.children with _ | active
    · dsimp only
      rcases hf : firstLiveWithTag activityTag st.children with _ | p
      · dsimp only
        rcases hl : lookupKey activityTag st.registryTags with _ | ctor
        · dsimp only
          exact hinv
        · dsimp only
          by_cases hc : ctor.isActivity = true
          · rw [if_pos hc]
            intro tag
            rw [setup_children]
            show liveCount tag (st.children ++
              [{ id := st.nextId, tag := activityTag, isActivity := true,
                 destroyed := false, animate := !noAnimation, modals := [],
                 hooks := ctor.initHooks, hasRefresh := ctor.hasRefresh,
                 title := ctor.title }]) ≤ 1
            rw [liveCount_append]
            by_cases ht : tag = activityTag
            · subst ht
              rw [liveCount_eq_zero tag st.children
                (fun e he hc2 => firstLive_none_not_mem _ _ hf e he hc2)]
              simp [liveCount]
            · have h2 : liveCount tag
                  [{ id := st.nextId, tag := activityTag, isActivity := true,
                     destroyed := false, animate := !noAnimation, modals := [],
                     hooks := ctor.initHooks, hasRefresh := ctor.hasRefresh,
                     title := ctor.title }] = 0 := by
                simp only [liveCount, Nat.add_zero]
                rw [if_neg]
                rintro ⟨hcc, -⟩
                exact ht hcc.symm
              rw [h2]
              have hb := hinv tag
              omega
          · rw [if_neg hc]
            exact hinv
      · obtain ⟨idx, loaded⟩ := p
        dsimp only
        intro tag
        rw [setup_children]
        show liveCount tag (destroyAfter st.children idx) ≤ 1
        exact Nat.le_trans (liveCount_destroyAfter_le tag st.children idx) (hinv tag)
    · dsimp only
      intro tag
      rw [setup_children]
      exact hinv tag

/-- Invariant preservation over any navigation sequence. -/
theorem runNavs_preserves (ops : List NavOp) :
    ∀ st : AppSt, cacheInvariant st.children → cacheInvariant (runNavs ops st).children := by
  induction ops with
  | nil => intro st h; exact h
  | cons op rest ih =>
    intro st h
    exact ih _ (startActivityViaTag_preserves_inv op.tag op.noAnimation op.args st h)

/-- Two live screen instances of distinct types, for the concrete reuse
scenario. -/
def c1elemA : Elem :=
  { id := 1, tag := "screen-a", isActivity := true, destroyed := false,
    animate := false, modals := [], hooks := [], hasRefresh := false, title := none }

def c1elemB : Elem :=
  { id := 2, tag := "screen-b", isActivity := true, destroyed := false,
    animate := false, modals := [], hooks := [], hasRefresh := false, title := none }

def c1st : AppSt := { baseSt with children := [c1elemA, c1elemB] }

theorem c1st_inv : cacheInvariant c1st.children := by
  intro tag
  show (if "screen-a" = tag ∧ false = false ∧ true = true then 1 else 0) +
    ((if "screen-b" = tag ∧ false = false ∧ true = true then 1 else 0) + 0) ≤ 1
  by_cases h1 : "screen-a" = tag
  · have hb : ¬("screen-b" = tag ∧ false = false ∧ true = true) := by
      rintro ⟨h2, -, -⟩
      exact absurd (h1.trans h2.symm) (by decide)
    rw [if_pos ⟨h1, rfl, rfl⟩, if_neg hb]
  · rw [if_neg (fun hc => h1 hc.1)]
    split_ifs <;> omega

/-- C1: across any sequence of navigations through the screen starter, the
cache keeps at most one live (undestroyed) screen instance per screen type;
and a navigation targeting a type that already has a live instance reuses
exactly that instance — no error, no new sibling, `switchedTo` delivered to
the existing instance — while destroying every screen instance attached
after it in sibling order. -/
theorem c1_unique_live_instance_and_reuse :
    (∀ (ops : List NavOp) (st : AppSt),
      cacheInvariant st.children → cacheInvariant (runNavs ops st).children) ∧
    (∀ (activityTag : String) (noAnimation : Bool) (args : PageArgs) (st : AppSt)
      (i : Nat) (a : Elem),
      st.started = true →
      cacheInvariant st.children →
      (∀ e ∈ st.children, e.tag = activityTag → e.isActivity = true) →
      st.children[i]? = some a →
      a.tag = activityTag →
      a.destroyed = false →
      (startActivityViaTag activityTag noAnimation args st).2 = none ∧
      (startActivityViaTag activityTag noAnimation args st).1.children.length
        = st.children.length ∧
      (startActivityViaTag activityTag noAnimation args st).1.events
        = st.events ++ [Ev.switchedTo a.id args] ∧
      ∀ j b, i < j → st.children[j]? = some b → b.isActivity = true →
        (startActivityViaTag activityTag noAnimation args st).1.children[j]?
          = some { b with destroyed := true }) :=
  ⟨fun ops st h => runNavs_preserves ops st h,
   fun activityTag noAnimation args st i a h1 h2 h3 h4 h5 h6 =>
     startActivityViaTag_reuse activityTag noAnimation args st i a h1 h2 h3 h4 h5 h6⟩

/-- Concrete instantiation of `c1_unique_live_instance_and_reuse`: with live
screens "screen-a" then "screen-b" attached, navigating to "screen-a" keeps
the cache invariant, throws nothing, creates no sibling, re-delivers
`switchedTo` to the existing "screen-a" instance and destroys the
"screen-b" instance attached after it. -/
theorem c1_unique_live_instance_and_reuse_witness :
    cacheInvariant c1st.children ∧
    cacheInvariant (runNavs [⟨"screen-a", true, []⟩] c1st).children ∧
    (startActivityViaTag "screen-a" true [] c1st).2 = none ∧
    (startActivityViaTag "screen-a" true [] c1st).1.children.length
      = c1st.children.length ∧
    (startActivityViaTag "screen-a" true [] c1st).1.events
      = c1st.events ++ [Ev.switchedTo c1elemA.id []] ∧
    (startActivityViaTag "screen-a" true [] c1st).1.children[1]?
      = some { c1elemB with destroyed := true } := by
  have h := c1_unique_live_instance_and_reuse.2 "screen-a" true [] c1st 0 c1elemA
    rfl c1st_inv (by decide) rfl rfl rfl
  exact ⟨c1st_inv,
    c1_unique_live_instance_and_reuse.1 [⟨"screen-a", true, []⟩] c1st c1st_inv,
    h.1, h.2.1, h.2.2.1, h.2.2.2 1 c1elemB (by decide) rfl rfl⟩

end Application

/-! ## Claim C4, C8, C9 theorems. -/

/-- C4: for a component instance that is mounted once and then receives `d`
duplicate `connectedCallback` invocations, the mount sequence runs exactly
once, every duplicate logs a warning, and the fatal "trapped" error is thrown
on some invocation exactly when the number of duplicates exceeds the retry
ceiling of 6; in particular with at most 6 duplicates the throwing branch is
never reached. -/
theorem c4_duplicate_mount_guard (d : Nat) :
    (ComponentBase.runCC (1 + d)).1.mountRuns = 1 ∧
    (ComponentBase.runCC (1 + d)).1.warns = d ∧
    ((ComponentBase.runCC (1 + d)).2 = true ↔ 6 < d) := by
  rw [ComponentBase.runCC_closed]
  refine ⟨rfl, rfl, ?_⟩
  simp

/-- C8: `removeModal` is idempotent: the first call sets the removing flag,
and any later call on the resulting modal (whatever `history.state` then is)
returns it unchanged and performs no effect. -/
theorem c8_removeModal_idempotent (hs1 hs2 : Bool) (m : ModalComponent.ModalSt) :
    (ModalComponent.removeModal hs1 m).1.removing = true ∧
    ModalComponent.removeModal hs2 (ModalComponent.removeModal hs1 m).1 =
      ((ModalComponent.removeModal hs1 m).1, []) := by
  obtain ⟨t, r, d⟩ := m
  cases r <;> cases t <;> cases hs1 <;> simp [ModalComponent.removeModal]

/-- C9: route-table construction rejects duplicates: registering an already
registered path throws "Route already registered." leaving the table
unchanged, registering a second default (empty-path) entry throws
"A default activity is already registered." leaving the table unchanged, and
over any sequence of registrations every established route binding and the
default marker persist unchanged, so at most one entry per path and at most
one default entry ever exist. -/
theorem c9_registration_rejects_duplicates :
    (∀ (a : ActivityP4.ActClass) (r : String) (st : ActivityP4.RegSt),
      a.hasSwitchedTo = true → r ≠ "" →
      (lookupKey (ActivityP4.ActivityRouteRoot ++ r) st.registeredActivities).isSome = true →
      ActivityP4.RegisterActivity a r st = (st, some "Route already registered.")) ∧
    (∀ (a : ActivityP4.ActClass) (st : ActivityP4.RegSt),
      a.hasSwitchedTo = true → st.defaultActivity.isSome = true →
      ActivityP4.RegisterActivity a "" st =
        (st, some "A default activity is already registered.")) ∧
    (∀ (ops : List (ActivityP4.ActClass × String)) (st : ActivityP4.RegSt),
      ActivityP4.Inv st →
      (∀ k v, lookupKey k st.registeredActivities = some v →
        lookupKey k (ActivityP4.runRegs ops st).registeredActivities = some v) ∧
      (∀ x, st.defaultActivity = some x →
        (ActivityP4.runRegs ops st).defaultActivity = some x)) := by
  refine ⟨?_, ?_, ?_⟩
  · intro a r st hsw hr hl
    unfold ActivityP4.RegisterActivity
    simp [hsw, hr, hl]
  · intro a st hsw hd
    unfold ActivityP4.RegisterActivity
    simp [hsw, hd]
  · intro ops st hInv
    exact (ActivityP4.runRegs_preserves ops st hInv).2

/-- Concrete instantiation of `c9_registration_rejects_duplicates`: a table
holding route "main" rejects re-registering "main", and a table holding a
default rejects a second default registration. -/
theorem c9_registration_rejects_duplicates_witness :
    (lookupKey (ActivityP4.ActivityRouteRoot ++ "main")
        [("main", "activity-main")]).isSome = true ∧
    ActivityP4.RegisterActivity ⟨true⟩ "main"
        ⟨[("main", "activity-main")], none, ["activity-main"]⟩ =
      (⟨[("main", "activity-main")], none, ["activity-main"]⟩,
        some "Route already registered.") ∧
    ActivityP4.RegisterActivity ⟨true⟩ ""
        ⟨[("main", "activity-main")], some "activity-default",
          ["activity-main", "activity-default"]⟩ =
      (⟨[("main", "activity-main")], some "activity-default",
          ["activity-main", "activity-default"]⟩,
        some "A default activity is already registered.") :=
  ⟨by decide,
   c9_registration_rejects_duplicates.1 ⟨true⟩ "main"
     ⟨[("main", "activity-main")], none, ["activity-main"]⟩ rfl (by decide) (by decide),
   c9_registration_rejects_duplicates.2.1 ⟨true⟩
     ⟨[("main", "activity-main")], some "activity-default",
       ["activity-main", "activity-default"]⟩ rfl rfl⟩

end Greenframe
